import Mathlib

/-!
Shallow embedding of the ZipperMerge traffic simulation engine
(road grid, car behavior model, merge decision logic, per-tick stepper)
together with theorems checking the specification's claims against it.

The JavaScript sources are translated function by function:
* `road.js` → `Road.placeBlockage`, `Road.addCar`, `Road.merge`,
  `Road.driveCars`, `Road.driveCar`, `Road.getFairness`, `Road.setCarPos`;
* the car file → `Car` and its methods, `getValueFromNormalized`;
* the decision file → `getDistance`, `getLeftOpenSpaces`, `getMergeUrgency`,
  `canMerge`, `checkUnderCarLeftQuota`, `shouldLetCarIn`,
  `getLeft10AverageSpeed`, `alertRearDriver`, `isInRubberneckZone`,
  `effectSpeed`, `effectMergeState`.

JavaScript numbers are modelled as rationals (`ℚ`), wall-clock timestamps as
rational milliseconds passed in explicitly, the sentinel `-1` used for
"no timestamp yet" as `Option ℚ`, and grid cells as an inductive type
(`null` ↦ `Cell.empty`, `0` ↦ `Cell.block`, a car reference ↦ `Cell.car id`
with the car record looked up through `Road.carOf`).
-/

namespace ZipperMerge

/-- Absolute number of spaces per lane (`ROAD_WIDTH` in road.js). -/
def ROAD_WIDTH : Nat := 50

/-- First blocked column (`BLOCK_START` in road.js). -/
def BLOCK_START : Nat := 40

/-- Lifetime of car trails in milliseconds (`CAR_TRAIL_LIFESPAN`). -/
def CAR_TRAIL_LIFESPAN : ℚ := 10000

/-- Maximum speed in feet per second (`MAX_SPEED`). -/
def MAX_SPEED : ℚ := 66

def FOLLOWING_DISTANCE_MID : ℚ := 3
def FOLLOWING_DISTANCE_LOW : ℚ := 1/5
def FOLLOWING_DISTANCE_HIGH : ℚ := 5

def MERGE_DISTANCE_MID : ℚ := 25
def MERGE_DISTANCE_LOW : ℚ := 50
def MERGE_DISTANCE_HIGH : ℚ := 2

def MERGE_GAP_MID : ℚ := 3/2
def MERGE_GAP_LOW : ℚ := 4/5
def MERGE_GAP_HIGH : ℚ := 3

def MERGE_SPACE_MID : ℚ := 3
def MERGE_SPACE_LOW : ℚ := 1
def MERGE_SPACE_HIGH : ℚ := 5

/-- Speed factor of the rubbernecking effect (`RUBBERNECK_SPEED_FACTOR = 0.85`). -/
def RUBBERNECK_SPEED_FACTOR : ℚ := 85/100

/-- Length in cells of the rubbernecking zone (`RUBBERNECK_ZONE_LENGTH`). -/
def RUBBERNECK_ZONE_LENGTH : Nat := 8

/-- The behavioral states of a car (the `State` object). -/
inductive CState where
  | Default
  | Merge
  | Yield
  | Right
deriving DecidableEq, Repr

/-- One grid cell: `null` (open), `0` (blockage), or a car reference. -/
inductive Cell where
  | empty
  | block
  | car (id : Nat)
deriving DecidableEq, Repr

/-- The classes of cell contents `getDistance` can scan for (`SpaceType`). -/
inductive SpaceType where
  | Cars
  | Blockage
  | All
  | Empty
deriving DecidableEq, Repr

/-- A car record: the fields of the `Car` class that the engine reads or
writes (rendering-only fields such as color and the visual lerp position
are omitted).  `lastMoved = none` models the `-1` sentinel. -/
structure Car where
  mergeTendency : ℚ
  cooperation : ℚ
  aggressiveness : ℚ
  laneNumber : Nat
  lanePosX : Nat
  state : CState
  speed : ℚ
  carsLetIn : Nat
  followingDistance : ℚ
  indicator : Bool
  lastMoved : Option ℚ
  distance : ℚ
  startTime : Option ℚ
  startLane : Nat
deriving Repr

/-- A completion record pushed when a car exits
(`{startLane, travelTime, expirationTime}`). -/
structure CompletedCar where
  startLane : Nat
  travelTime : ℚ
  expirationTime : ℚ
deriving DecidableEq, Repr

/-- The road: the lanes-by-cells occupancy grid and the tracked cars.
Car records are looked up by identifier through `carOf`; a grid cell
`Cell.car id` is the non-owning reference `roadSpace[lane][x] = car`.  -/
structure Road where
  roadSpace : List (List Cell)
  cars : List Nat
  blockedLanes : Nat
  spaceSize : ℚ
  carOf : Nat → Car
  trails : List ℚ
  completedCars : List CompletedCar

/-- Replace the record of car `id` (mutation of the shared car object). -/
def Road.setCar (r : Road) (id : Nat) (c : Car) : Road :=
  { r with carOf := fun j => if j = id then c else r.carOf j }

/-- Read `roadSpace[lane][x]`; out-of-bounds reads yield `empty`
(the only out-of-bounds reads the engine performs are ones JavaScript
resolves to `undefined`, which its `== null` / `instanceof` tests treat
like an open cell). -/
def cellAt (r : Road) (lane x : Nat) : Cell :=
  (r.roadSpace.getD lane []).getD x Cell.empty

/-- Write `roadSpace[lane][x] = c` (in-bounds writes only are performed). -/
def setCell (r : Road) (lane x : Nat) (c : Cell) : Road :=
  { r with roadSpace := r.roadSpace.set lane ((r.roadSpace.getD lane []).set x c) }

/-- `getLaneData`: the lane array, or `none` for the `-1` error sentinel. -/
def getLaneData (r : Road) (lane : Nat) : Option (List Cell) :=
  r.roadSpace.get? lane

/-- Does a cell match the target class in `getDistance`'s scan loop?
(`All` matches any non-null cell, `Blockage` matches `0`, `Cars` matches a
car reference, `Empty` matches nothing — the loop has no branch for it.) -/
def cellMatches (t : SpaceType) (c : Cell) : Bool :=
  match t with
  | SpaceType.All => c ≠ Cell.empty
  | SpaceType.Blockage => c = Cell.block
  | SpaceType.Cars => match c with | Cell.car _ => true | _ => false
  | SpaceType.Empty => false

/-- `getDistance(road, lane, laneX, targetSpace)`: walk from `laneX+1` to the
lane end; return the offset of the first matching cell, `100` if none
matches, `-2` if the walk would start at or past the lane end, and `-1`
for an invalid lane. -/
def getDistance (r : Road) (lane x : Nat) (t : SpaceType) : ℤ :=
  match getLaneData r lane with
  | none => -1
  | some laneData =>
    if x + 1 ≥ laneData.length then -2
    else
      match (laneData.drop (x + 1)).findIdx? (cellMatches t) with
      | some k => (k : ℤ)
      | none => 100

/-- The three open-space quantities surveyed to the left
(`{left_ahead, left_beside, left_behind}`). -/
structure OpenSpaces where
  left_ahead : ℤ
  left_beside : Nat
  left_behind : Nat
deriving DecidableEq, Repr

/-- The backward scan of `getLeftOpenSpaces`: starting at index `x` of the
left lane, count consecutive `null` cells going down, stopping at the first
occupied cell; index `0` is never counted (the loop requires `idx > 0`). -/
def countBehind (l : List Cell) : Nat → Nat
  | 0 => 0
  | x + 1 => if l.getD (x + 1) Cell.empty = Cell.empty then countBehind l x + 1 else 0

/-- `getLeftOpenSpaces(road, lane, laneX)`: `none` models the numeric `-1`
error result (invalid lane data or mismatched lane lengths). -/
def getLeftOpenSpaces (r : Road) (lane x : Nat) : Option OpenSpaces :=
  match getLaneData r lane with
  | none => none
  | some laneData =>
    if lane = 0 then some ⟨0, 0, 0⟩
    else
      match getLaneData r (lane - 1) with
      | none => none
      | some leftLaneData =>
        if leftLaneData.length ≠ laneData.length then none
        else if x ≥ laneData.length - 1 then some ⟨0, 0, 0⟩
        else if leftLaneData.getD x Cell.empty ≠ Cell.empty then some ⟨0, 0, 0⟩
        else
          let aheadSpaces := getDistance r (lane - 1) x SpaceType.All
          let ahead := if 0 ≤ aheadSpaces then aheadSpaces else 0
          some ⟨ahead, 1, countBehind leftLaneData x⟩

/-- `getMergeUrgency(car, road)`: urgency factor in `[0.3, 1.0]` from the
distance to the blockage along the car's own lane. -/
def getMergeUrgency (c : Car) (r : Road) : ℚ :=
  let distanceToBlockage := getDistance r c.laneNumber c.lanePosX SpaceType.Blockage
  if distanceToBlockage < 0 ∨ 100 ≤ distanceToBlockage then 1
  else if 20 ≤ distanceToBlockage then 1
  else if 10 ≤ distanceToBlockage then 7/10 + ((distanceToBlockage : ℚ) - 10) * (3/100)
  else if 5 ≤ distanceToBlockage then 1/2 + ((distanceToBlockage : ℚ) - 5) * (4/100)
  else max (3/10) (3/10 + ((distanceToBlockage : ℚ) - 2) * (67/1000))

/-- `getValueFromNormalized(input, low, mid, high)` translated verbatim:
note the source compares `input` with `mid` (the middle anchor VALUE),
not with `0.5`. -/
def getValueFromNormalized (input low mid high : ℚ) : ℚ :=
  if input = mid then mid
  else if input < mid then
    let spread := mid - low
    let get := (input / (1/2)) * spread
    low + get
  else
    let spread := high - mid
    let get := ((input - 1/2) / (1/2)) * spread
    mid + get

/-- JavaScript `Math.round` (round half away from zero is `Math.round`'s
behavior only for positives; `Math.round` rounds half UP, i.e. `⌊q + 1/2⌋`). -/
def jsRound (q : ℚ) : ℤ := ⌊q + 1/2⌋

namespace Car

/-- `getDesiredMergeGap()`. -/
def getDesiredMergeGap (c : Car) : ℚ :=
  getValueFromNormalized c.aggressiveness MERGE_GAP_LOW MERGE_GAP_MID MERGE_GAP_HIGH

/-- `getDesiredMergeSpace(road, urgencyFactor)`: the road argument is
optional because `getDesiredDistance` invokes it with no arguments, which
makes the `road instanceof Road` test fail and the space size default
to `15`. -/
def getDesiredMergeSpace (c : Car) (road : Option Road) (urgencyFactor : ℚ) : ℚ :=
  let gapSeconds := c.getDesiredMergeGap * urgencyFactor
  let spaceSize := match road with | some r => r.spaceSize | none => 15
  let spacesNeeded := c.speed * gapSeconds / spaceSize
  let minSpaces := getValueFromNormalized c.aggressiveness
    MERGE_SPACE_LOW MERGE_SPACE_MID MERGE_SPACE_HIGH
  max minSpaces (⌈spacesNeeded⌉ : ℚ)

/-- `getDesiredMergingDistance()`. -/
def getDesiredMergingDistance (c : Car) : ℚ :=
  getValueFromNormalized c.mergeTendency MERGE_DISTANCE_LOW MERGE_DISTANCE_MID MERGE_DISTANCE_HIGH

/-- `getCarQuota(road)`. -/
def getCarQuota (c : Car) (r : Road) : ℤ :=
  jsRound (c.cooperation * ((r.blockedLanes : ℚ) - (c.laneNumber : ℚ)))

/-- `getActualDistance(road)`. -/
def getActualDistance (c : Car) (r : Road) : ℤ :=
  getDistance r c.laneNumber c.lanePosX SpaceType.All

/-- `adjustSpeedBy(amount)`: clamp the adjusted speed to `[0, MAX_SPEED]`. -/
def adjustSpeedBy (c : Car) (amount : ℚ) : Car :=
  let effected := c.speed + amount
  if MAX_SPEED ≤ effected then { c with speed := MAX_SPEED }
  else if effected ≤ 0 then { c with speed := 0 }
  else { c with speed := effected }

/-- `alertMerge()`. -/
def alertMerge (c : Car) : Car := { c with carsLetIn := c.carsLetIn + 1 }

end Car

/-- `shouldLetCarIn(car, road)`: is there an indicating car in the lane to
the right, within the distance to the nearest obstacle ahead, while this
car is still under its let-in quota? -/
def shouldLetCarIn (c : Car) (r : Road) : Bool :=
  if (c.carsLetIn : ℤ) ≥ c.getCarQuota r then false
  else
    let totLanes := r.roadSpace.length
    if c.laneNumber + 1 ≥ totLanes then false
    else
      let nextLaneOver := r.roadSpace.getD (c.laneNumber + 1) []
      let roadWidth := nextLaneOver.length
      if c.lanePosX + 1 + 1 ≥ roadWidth then false
      else
        let distanceAhead := getDistance r (c.laneNumber + 1) (c.lanePosX + 1) SpaceType.All
        let distanceAhead : ℤ := if distanceAhead < 0 then (roadWidth : ℤ) else distanceAhead
        let roadXComp : ℤ := min (roadWidth : ℤ) ((c.lanePosX : ℤ) + 1 + distanceAhead)
        (List.range' (c.lanePosX + 1) (roadXComp.toNat + 1 - (c.lanePosX + 1))).any fun i =>
          match nextLaneOver.getD i Cell.empty with
          | Cell.car j => (r.carOf j).indicator
          | _ => false

/-- `getLeft10AverageSpeed(car, road)`: average speed of the cars in the
left lane within the window `[laneX-5, laneX+5)`, or `-1` if none. -/
def getLeft10AverageSpeed (c : Car) (r : Road) : ℚ :=
  if c.laneNumber = 0 then -1
  else
    let leftLane := r.roadSpace.getD (c.laneNumber - 1) []
    let roadWidth := leftLane.length
    let checkStart := c.lanePosX - 5
    let checkEnd := min roadWidth (c.lanePosX + 5)
    let speeds := ((leftLane.take checkEnd).drop checkStart).filterMap fun cell =>
      match cell with
      | Cell.car j => some (r.carOf j).speed
      | _ => none
    if speeds.length = 0 then -1 else speeds.sum / (speeds.length : ℚ)

/-- `checkUnderCarLeftQuota(car, road, spaces)`: whether the car occupying
the cell just behind the open window in the left lane is still under its
let-in quota (every error path resolves to `true` = allow). -/
def checkUnderCarLeftQuota (c : Car) (r : Road) (spaces : Option OpenSpaces) : Bool :=
  match spaces with
  | none => true
  | some sp =>
    if sp.left_behind = 0 then true
    else
      let totLanes := r.roadSpace.length
      if c.laneNumber = 0 ∨ c.laneNumber ≥ totLanes then true
      else
        let totLaneX := (r.roadSpace.getD (c.laneNumber - 1) []).length
        let laneNCheck := c.laneNumber - 1
        let laneXCheck : ℤ := (c.lanePosX : ℤ) - (sp.left_behind : ℤ)
        if laneXCheck < 0 ∨ (laneNCheck : ℤ) ≥ (totLaneX : ℤ) then true
        else
          match cellAt r laneNCheck laneXCheck.toNat with
          | Cell.car j =>
            if ((r.carOf j).carsLetIn : ℤ) < (r.carOf j).getCarQuota r then true else false
          | _ => true

/-- `canMerge(car, road)`: the acceptance decision.  The quota check is
computed but its gate is commented out in the source, so its value is
bound and discarded. -/
def canMerge (c : Car) (r : Road) : Bool :=
  let urgencyFactor := getMergeUrgency c r
  let desiredSpaces := c.getDesiredMergeSpace (some r) urgencyFactor
  let leftSpeed := getLeft10AverageSpeed c r
  let desiredSpaces :=
    if 0 ≤ leftSpeed ∧ leftSpeed ≤ 1 ∧ 2 < desiredSpaces then 2 else desiredSpaces
  let spaces := getLeftOpenSpaces r c.laneNumber c.lanePosX
  let _quotaOk := checkUnderCarLeftQuota c r spaces
  match spaces with
  | none => false
  | some sp =>
    decide (desiredSpaces ≤ ((sp.left_ahead : ℚ) + (sp.left_behind : ℚ) + (sp.left_beside : ℚ)))

/-- The descending scan of `alertRearDriver`: the first car reference at an
index strictly below the given position, if any. -/
def findCarBehind (lane : List Cell) : Nat → Option Nat
  | 0 => none
  | x + 1 =>
    match lane.getD x Cell.empty with
    | Cell.car j => some j
    | _ => findCarBehind lane x

/-- `alertRearDriver(car, road, newLane)`: alert the first car behind the
merge position in the destination lane by bumping its let-in counter. -/
def alertRearDriver (c : Car) (r : Road) (newLane : Nat) : Road :=
  if newLane ≥ r.roadSpace.length then r
  else if c.lanePosX = 0 then r
  else
    match findCarBehind (r.roadSpace.getD newLane []) c.lanePosX with
    | some j => r.setCar j ((r.carOf j).alertMerge)
    | none => r

/-- `isInRubberneckZone(car, road)`. -/
def isInRubberneckZone (c : Car) (r : Road) : Bool :=
  if c.laneNumber ≥ r.roadSpace.length - r.blockedLanes then false
  else decide (BLOCK_START ≤ c.lanePosX ∧ c.lanePosX < BLOCK_START + RUBBERNECK_ZONE_LENGTH)

/-- `getDesiredDistance(road)` on `Car`: kept distance in feet. -/
def Car.getDesiredDistance (c : Car) (r : Road) : ℚ :=
  if shouldLetCarIn c r then c.getDesiredMergeSpace none 1 * r.spaceSize
  else c.speed * c.followingDistance

/-- The rubbernecking contribution added to the speed difference when the
car is inside the rubberneck zone (the body of the zone branch of
`effectSpeed`). -/
def rubberneckDelta (c : Car) : ℚ :=
  let depthInZone := ((c.lanePosX : ℚ) - (BLOCK_START : ℚ)) / (RUBBERNECK_ZONE_LENGTH : ℚ)
  let rubberneckIntensity := 1 - depthInZone
  let targetSpeed := c.speed * (RUBBERNECK_SPEED_FACTOR + (1 - RUBBERNECK_SPEED_FACTOR) * depthInZone)
  let rubberneckAdjustment := targetSpeed - c.speed
  rubberneckAdjustment * rubberneckIntensity

/-- The speed-difference term of `effectSpeed` before the rubberneck branch
(following-distance difference, blended toward the left-lane average speed
when merging). -/
def speedDifferenceBase (c : Car) (r : Road) : ℚ :=
  let desiredDistance := c.getDesiredDistance r
  let actualDistanceSpaces := c.getActualDistance r
  let actualDistanceFeet := (actualDistanceSpaces : ℚ) * r.spaceSize
  let difference := actualDistanceFeet - desiredDistance
  if c.state = CState.Merge then
    let leftLaneSpeed := getLeft10AverageSpeed c r
    if 0 ≤ leftLaneSpeed then
      let speedDiff := leftLaneSpeed - c.speed
      let speedMatchAdjustment := speedDiff * (3/10)
      let urgency := getMergeUrgency c r
      let speedMatchWeight := 1 - urgency
      difference * (1 - speedMatchWeight) + speedMatchAdjustment * speedMatchWeight * 10
    else difference
  else difference

/-- `effectSpeed(car, road)`: the negative-distance early return, the
following/merge-blend difference, the rubberneck branch, and the final
bounded speed adjustment. -/
def effectSpeed (c : Car) (r : Road) : Car :=
  if c.getActualDistance r < 0 then c
  else
    let difference := speedDifferenceBase c r
    let difference :=
      if isInRubberneckZone c r then difference + rubberneckDelta c else difference
    c.adjustSpeedBy difference

/-- `effectMergeState(car, road)`: enter `Merge` when the distance to the
blockage no longer exceeds the desired merging distance, else `Default`. -/
def effectMergeState (c : Car) (r : Road) : Car :=
  let desiredMergingDistance := c.getDesiredMergingDistance
  let distanceToMerge := getDistance r c.laneNumber c.lanePosX SpaceType.Blockage
  let difference := (distanceToMerge : ℚ) - desiredMergingDistance
  if difference ≤ 0 then { c with state := CState.Merge }
  else { c with state := CState.Default }

namespace Road

/-- The lane-change branch at the top of `setCarPos`: when the destination
lane differs from the current one, alert the rear driver in the new lane
and bump the moving car's own let-in counter (`car.alertMerge()`). -/
def alertPhase (r : Road) (id lane : Nat) : Road :=
  if (r.carOf id).laneNumber ≠ lane then
    let r2 := alertRearDriver (r.carOf id) r lane
    r2.setCar id ((r2.carOf id).alertMerge)
  else r

/-- `setCarPos(car, lane, laneX)`: commit a position change.  Returns the
updated road and the numeric result (`-1` collision/out-of-bounds, `0`
success).  Note the source's order of operations: bounds checks, then the
merge alerts when the lane changes, then vacating the current cell, and
only then the occupancy check of the destination. -/
def setCarPos (r : Road) (id : Nat) (lane laneX : Nat) : Road × ℤ :=
  let numberOfLanes := r.roadSpace.length
  if lane ≥ numberOfLanes ∨ laneX ≥ ROAD_WIDTH then (r, -1)
  else
    let currentLane := (r.carOf id).laneNumber
    let currentLaneX := (r.carOf id).lanePosX
    if currentLane ≥ numberOfLanes ∨ currentLaneX ≥ ROAD_WIDTH then (r, -1)
    else
      let r1 := r.alertPhase id lane
      let r2 := setCell r1 currentLane currentLaneX Cell.empty
      if cellAt r2 lane laneX ≠ Cell.empty then (r2, -1)
      else
        let r3 := setCell r2 lane laneX (Cell.car id)
        (r3.setCar id { r3.carOf id with laneNumber := lane, lanePosX := laneX }, 0)

/-- `merge(car)`: move the car one lane to the left if the beside cell is
open. -/
def merge (r : Road) (id : Nat) : Road :=
  let c := r.carOf id
  if c.laneNumber = 0 then r
  else
    let mergeSpace := cellAt r (c.laneNumber - 1) c.lanePosX
    if mergeSpace = Cell.empty then (r.setCarPos id (c.laneNumber - 1) c.lanePosX).1
    else r

/-- The tail of `Car.drive(road)` after the distance accumulation: adjust
speed, update the merge state, stamp the time, mirror the indicator, and
merge when in `Merge` state and `canMerge` holds.  The argument road
already contains the car with its accumulated distance; each field write
to the shared car object is made visible to the road-based reads that
follow it. -/
def stampCar (c : Car) (now : ℚ) : Car :=
  { c with lastMoved := some now, indicator := c.state = CState.Merge }

def driveRest (r : Road) (now : ℚ) (id : Nat) : Road :=
  let c2 := effectSpeed (r.carOf id) r
  let r2 := r.setCar id c2
  let c3 := effectMergeState c2 r2
  let r3 := r2.setCar id c3
  let c4 := stampCar c3 now
  let r4 := r3.setCar id c4
  if c4.state = CState.Merge ∧ canMerge c4 r4 then r4.merge id else r4

/-- `Car.drive(road)`: a car with no previous timestamp only records the
current time; otherwise it accumulates distance at its current speed over
the elapsed time and runs the rest of the per-car step (`driveRest`). -/
def drive (r : Road) (now : ℚ) (id : Nat) : Road :=
  match (r.carOf id).lastMoved with
  | none => r.setCar id { r.carOf id with lastMoved := some now }
  | some t0 =>
    driveRest (r.setCar id
      { r.carOf id with
        distance := (r.carOf id).distance + (r.carOf id).speed * ((now - t0) / 1000) }) now id

/-- `driveCar(car, toRemove)`: drive one car, compute its desired cell from
cumulative distance, clamp the forward move to the space available ahead,
and commit it; a `-1` commit result marks the car's index for removal
(returned as the optional second component). -/
def driveCar (r : Road) (now : ℚ) (id : Nat) : Road × Option Nat :=
  let index := r.cars.indexOf id
  let r1 := r.drive now id
  let c1 := r1.carOf id
  let desired0 : ℤ := ⌊c1.distance / r1.spaceSize⌋ - 1
  let desiredLaneX : ℤ := if desired0 < 0 then 0 else desired0
  if desiredLaneX ≠ (c1.lanePosX : ℤ) then
    let availableSpace := getDistance r1 c1.laneNumber c1.lanePosX SpaceType.All
    let availableSpace : ℤ := if availableSpace < 0 then (ROAD_WIDTH : ℤ) else availableSpace
    let maxLaneX : ℤ := (c1.lanePosX : ℤ) + availableSpace
    let safeLaneX : ℤ := min desiredLaneX maxLaneX
    if safeLaneX ≠ (c1.lanePosX : ℤ) then
      let result := r1.setCarPos id c1.laneNumber safeLaneX.toNat
      (result.1, if result.2 = -1 then some index else none)
    else (r1, none)
  else (r1, none)

/-- The comparator of `driveCars`' sort: leftmost lane first, then
back-to-front within a lane. -/
def carOrder (r : Road) (a b : Nat) : Prop :=
  (r.carOf a).laneNumber < (r.carOf b).laneNumber ∨
    ((r.carOf a).laneNumber = (r.carOf b).laneNumber ∧
      (r.carOf a).lanePosX ≤ (r.carOf b).lanePosX)

instance (r : Road) : DecidableRel (carOrder r) := fun _ _ => by
  unfold carOrder; infer_instance

/-- The sorted snapshot `[...this.cars].sort(...)` of `driveCars`. -/
def sortedCars (r : Road) : List Nat :=
  r.cars.insertionSort (carOrder r)

/-- One step of the removal loop of `driveCars`: null the removed car's
grid cell, push a trail record and (when the car has a start time) a
completion record, and splice the car list at the removed index. -/
def removeCar (r : Road) (item : Nat) (now : ℚ) : Road :=
  match r.cars.get? item with
  | some id =>
    let c := r.carOf id
    let r := setCell r c.laneNumber c.lanePosX Cell.empty
    let r := { r with trails := r.trails ++ [now + CAR_TRAIL_LIFESPAN] }
    let r :=
      match c.startTime with
      | some st =>
        { r with completedCars :=
            r.completedCars ++
              [CompletedCar.mk c.startLane (now - st) (now + CAR_TRAIL_LIFESPAN)] }
      | none => r
    { r with cars := r.cars.eraseIdx item }
  | none => { r with cars := r.cars.eraseIdx item }

/-- The per-car phase of `driveCars`: fold `driveCar` over the sorted
snapshot, collecting the indices marked for removal. -/
def drivePhase (r : Road) (now : ℚ) : Road × List Nat :=
  (sortedCars r).foldl
    (fun acc id =>
      let result := acc.1.driveCar now id
      (result.1, acc.2 ++ result.2.toList))
    (r, [])

/-- `driveCars()`: drive every car (sorted), then process the collected
removal indices in descending order. -/
def driveCars (r : Road) (now : ℚ) : Road :=
  let phase := drivePhase r now
  let sortedRemove := phase.2.insertionSort (fun a b => a ≥ b)
  sortedRemove.foldl (fun racc item => racc.removeCar item now) phase.1

/-- `getRandomLane()`: the lanes whose entry cell is open; the random pick
is modelled by an explicit index into that list.  `-1` if none is open. -/
def getRandomLane (r : Road) (pick : Nat) : ℤ :=
  let openLanes := (List.range r.roadSpace.length).filter
    (fun i => (r.roadSpace.getD i []).getD 0 Cell.empty = Cell.empty)
  if openLanes.length = 0 then -1
  else ((openLanes.getD (pick % openLanes.length) 0 : Nat) : ℤ)

/-- `addCar(car)`: spawn the car at position 0 of an open lane, record it
in the car list, and stamp its start time and lane. -/
def addCar (r : Road) (id : Nat) (c : Car) (pick : Nat) (now : ℚ) : Road :=
  let lane := r.getRandomLane pick
  if lane < 0 then r
  else
    let lane := lane.toNat
    let r := setCell r lane 0 (Cell.car id)
    let r := { r with cars := r.cars ++ [id] }
    r.setCar id { c with laneNumber := lane, lanePosX := 0,
                         startTime := some now, startLane := lane }

end Road

/-- `getFairness()`: `1` for fewer than two completion records or a zero
mean, else `1 / (1 + CV)` with `CV` the population standard deviation of
the completion travel times divided by their mean. -/
noncomputable def Road.getFairness (r : Road) : ℝ :=
  if r.completedCars.length < 2 then 1
  else
    let times : List ℝ := r.completedCars.map (fun cc => (cc.travelTime : ℝ))
    let mean := times.sum / (times.length : ℝ)
    if mean = 0 then 1
    else
      let squaredDiffs := times.map (fun t => (t - mean) ^ 2)
      let variance := squaredDiffs.sum / (times.length : ℝ)
      let stdDev := Real.sqrt variance
      let cv := stdDev / mean
      1 / (1 + cv)

/-! ### Basic lemmas about the state operations -/

@[simp] lemma setCar_roadSpace (r : Road) (id : Nat) (c : Car) :
    (r.setCar id c).roadSpace = r.roadSpace := rfl

@[simp] lemma setCar_cars (r : Road) (id : Nat) (c : Car) :
    (r.setCar id c).cars = r.cars := rfl

@[simp] lemma setCar_spaceSize (r : Road) (id : Nat) (c : Car) :
    (r.setCar id c).spaceSize = r.spaceSize := rfl

@[simp] lemma setCar_blockedLanes (r : Road) (id : Nat) (c : Car) :
    (r.setCar id c).blockedLanes = r.blockedLanes := rfl

@[simp] lemma setCar_carOf_self (r : Road) (id : Nat) (c : Car) :
    (r.setCar id c).carOf id = c := by
  simp [Road.setCar]

lemma setCar_carOf_ne (r : Road) (id : Nat) (c : Car) {j : Nat} (h : j ≠ id) :
    (r.setCar id c).carOf j = r.carOf j := by
  simp [Road.setCar, h]

lemma setCar_carOf (r : Road) (id : Nat) (c : Car) (j : Nat) :
    (r.setCar id c).carOf j = if j = id then c else r.carOf j := rfl

@[simp] lemma setCell_cars (r : Road) (i j : Nat) (c : Cell) :
    (setCell r i j c).cars = r.cars := rfl

@[simp] lemma setCell_carOf (r : Road) (i j : Nat) (c : Cell) :
    (setCell r i j c).carOf = r.carOf := rfl

@[simp] lemma setCell_spaceSize (r : Road) (i j : Nat) (c : Cell) :
    (setCell r i j c).spaceSize = r.spaceSize := rfl

@[simp] lemma setCell_blockedLanes (r : Road) (i j : Nat) (c : Cell) :
    (setCell r i j c).blockedLanes = r.blockedLanes := rfl

@[simp] lemma setCell_length (r : Road) (i j : Nat) (c : Cell) :
    (setCell r i j c).roadSpace.length = r.roadSpace.length := by
  simp [setCell]

lemma cellAt_def (r : Road) (i j : Nat) :
    cellAt r i j = (r.roadSpace[i]?.getD [])[j]?.getD Cell.empty := by
  simp [cellAt, List.getD_eq_getElem?_getD]

lemma getLaneData_eq (r : Road) (i : Nat) : getLaneData r i = r.roadSpace[i]? := by
  simp [getLaneData]

/-- Reading a cell after a write: the write lands iff it was in bounds
and the coordinates agree; otherwise reads are unchanged. -/
lemma cellAt_setCell (r : Road) (i j : Nat) (c : Cell) (i' j' : Nat) :
    cellAt (setCell r i j c) i' j' =
      if i = i' ∧ j = j' ∧ i < r.roadSpace.length ∧ j < (r.roadSpace.getD i []).length
      then c else cellAt r i' j' := by
  rw [cellAt_def, cellAt_def]
  show ((r.roadSpace.set i ((r.roadSpace.getD i []).set j c))[i']?.getD [])[j']?.getD Cell.empty = _
  rcases eq_or_ne i i' with rfl | hi
  · by_cases hlen : i < r.roadSpace.length
    · have hgd : r.roadSpace.getD i [] = r.roadSpace[i] :=
        List.getD_eq_getElem _ _ hlen
      have hsome : r.roadSpace[i]? = some (r.roadSpace[i]) := List.getElem?_eq_getElem hlen
      have hset : (r.roadSpace.set i ((r.roadSpace.getD i []).set j c))[i]? =
          some ((r.roadSpace[i]).set j c) := by
        rw [← hgd]
        exact List.getElem?_set_self (by simpa using hlen)
      rw [hset]
      simp only [Option.getD_some, List.getElem?_set, hsome, hgd]
      rcases eq_or_ne j j' with rfl | hj
      · by_cases hj2 : j < r.roadSpace[i].length
        · simp [hlen, hj2]
        · have h2 : r.roadSpace[i][j]? = none := by
            rw [List.getElem?_eq_none_iff]; omega
          simp [hlen, hj2, h2]
      · simp [hj]
    · have hset : r.roadSpace.set i ((r.roadSpace.getD i []).set j c) = r.roadSpace :=
        List.set_eq_of_length_le (by omega)
      rw [hset]
      have : ¬ (i = i ∧ j = j' ∧ i < r.roadSpace.length ∧ j < (r.roadSpace.getD i []).length) := by
        intro h; exact hlen h.2.2.1
      rw [if_neg this]
  · rw [List.getElem?_set_ne hi]
    have : ¬ (i = i' ∧ j = j' ∧ i < r.roadSpace.length ∧ j < (r.roadSpace.getD i []).length) := by
      intro h; exact hi h.1
    rw [if_neg this]

/-- A cell that holds a car reference is in bounds. -/
lemma cellAt_car_bounds {r : Road} {i j id : Nat} (h : cellAt r i j = Cell.car id) :
    i < r.roadSpace.length ∧ j < (r.roadSpace.getD i []).length := by
  by_contra hc
  rw [not_and_or] at hc
  rw [cellAt_def] at h
  rcases hc with hc | hc
  · have : r.roadSpace[i]? = none := by rw [List.getElem?_eq_none_iff]; omega
    simp [this] at h
  · rcases Nat.lt_or_ge i r.roadSpace.length with hi | hi
    · have hgd : r.roadSpace.getD i [] = r.roadSpace[i] := List.getD_eq_getElem _ _ hi
      have hsome : r.roadSpace[i]? = some (r.roadSpace[i]) := List.getElem?_eq_getElem hi
      rw [hgd] at hc
      have : r.roadSpace[i][j]? = none := by rw [List.getElem?_eq_none_iff]; omega
      rw [hsome] at h
      simp [this] at h
    · have : r.roadSpace[i]? = none := by rw [List.getElem?_eq_none_iff]; omega
      simp [this] at h

/-- Lane lengths after a cell write. -/
lemma setCell_getD_length (r : Road) (i j : Nat) (c : Cell) (i' : Nat) :
    (((setCell r i j c).roadSpace.getD i' []) : List Cell).length =
      ((r.roadSpace.getD i' []) : List Cell).length := by
  simp only [setCell, List.getD_eq_getElem?_getD]
  rcases eq_or_ne i i' with rfl | hi
  · rw [List.getElem?_set]
    simp only [if_pos rfl]
    by_cases hlen : i < r.roadSpace.length
    · rw [if_pos hlen]
      have : r.roadSpace[i]? = some r.roadSpace[i] := List.getElem?_eq_getElem hlen
      simp [this, List.getD_eq_getElem _ _ hlen]
    · rw [if_neg hlen]
      have : r.roadSpace[i]? = none := by rw [List.getElem?_eq_none_iff]; omega
      simp [this]
  · rw [List.getElem?_set_ne hi]

lemma cellMatches_all_eq_false {c : Cell} :
    cellMatches SpaceType.All c = false ↔ c = Cell.empty := by
  cases c <;> simp [cellMatches]

lemma cellAt_of_laneData {r : Road} {L : List Cell} {lane : Nat}
    (hL : getLaneData r lane = some L) (j : Nat) :
    cellAt r lane j = L.getD j Cell.empty := by
  rw [getLaneData_eq] at hL
  rw [cellAt_def, hL]
  simp [List.getD_eq_getElem?_getD]

lemma getDistance_of_laneData {r : Road} {L : List Cell} {lane : Nat}
    (hL : getLaneData r lane = some L) (x : Nat) (t : SpaceType) :
    getDistance r lane x t =
      if x + 1 ≥ L.length then -2
      else
        match (L.drop (x + 1)).findIdx? (cellMatches t) with
        | some k => (k : ℤ)
        | none => 100 := by
  simp [getDistance, hL]

/-- The cells strictly ahead of `x`, up to the distance returned by a
successful `All` scan, are all empty. -/
lemma getDistance_all_empty_run {r : Road} {L : List Cell} {lane x : Nat}
    (hL : getLaneData r lane = some L) (hx : x + 1 < L.length) :
    ∀ j : Nat, x < j → (j : ℤ) ≤ (x : ℤ) + getDistance r lane x SpaceType.All →
      j < L.length → cellAt r lane j = Cell.empty := by
  intro j hj1 hj2 hj3
  rw [getDistance_of_laneData hL, if_neg (by omega)] at hj2
  have hcell : cellAt r lane j = L.getD j Cell.empty := cellAt_of_laneData hL j
  have hLj : L.getD j Cell.empty = L[j] := List.getD_eq_getElem _ _ hj3
  have hdj : j - (x + 1) < (L.drop (x + 1)).length := by
    rw [List.length_drop]; omega
  have hdrop : (L.drop (x + 1))[j - (x + 1)] = L[j] := by
    rw [List.getElem_drop]
    congr 1; omega
  rcases hF : (L.drop (x + 1)).findIdx? (cellMatches SpaceType.All) with _ | k
  · -- nothing matches before the lane end
    have hall := List.findIdx?_eq_none_iff.mp hF
    have hmem : (L.drop (x + 1))[j - (x + 1)] ∈ L.drop (x + 1) := List.getElem_mem hdj
    have := hall _ hmem
    rw [hdrop] at this
    rw [hcell, hLj]
    exact cellMatches_all_eq_false.mp this
  · rw [hF] at hj2
    simp only at hj2
    have hm : j - (x + 1) < k := by omega
    obtain ⟨hk1, hk2⟩ := List.findIdx?_eq_some_iff_findIdx_eq.mp hF
    have := @List.not_of_lt_findIdx _ (cellMatches SpaceType.All) (L.drop (x + 1))
      (j - (x + 1)) (by omega)
    rw [hdrop] at this
    rw [hcell, hLj]
    exact cellMatches_all_eq_false.mp this

/-- A negative scan result means the scan would start at or past the lane
end (given valid lane data it is exactly the `-2` boundary sentinel). -/
lemma getDistance_neg {r : Road} {L : List Cell} {lane x : Nat} {t : SpaceType}
    (hL : getLaneData r lane = some L)
    (h : getDistance r lane x t < 0) : L.length ≤ x + 1 := by
  rw [getDistance_of_laneData hL] at h
  by_contra hc
  rw [if_neg (by omega)] at h
  rcases hF : (L.drop (x + 1)).findIdx? (cellMatches t) with _ | k <;> rw [hF] at h
  · norm_num at h
  · simp only at h
    exact absurd h (not_lt.mpr (Int.natCast_nonneg k))

/-! ### Stability of car fields under the mutating operations -/

@[simp] lemma alertMerge_laneNumber (c : Car) : c.alertMerge.laneNumber = c.laneNumber := rfl
@[simp] lemma alertMerge_lanePosX (c : Car) : c.alertMerge.lanePosX = c.lanePosX := rfl
@[simp] lemma alertMerge_speed (c : Car) : c.alertMerge.speed = c.speed := rfl
@[simp] lemma alertMerge_distance (c : Car) : c.alertMerge.distance = c.distance := rfl
@[simp] lemma alertMerge_lastMoved (c : Car) : c.alertMerge.lastMoved = c.lastMoved := rfl
@[simp] lemma alertMerge_carsLetIn (c : Car) : c.alertMerge.carsLetIn = c.carsLetIn + 1 := rfl

lemma adjustSpeedBy_stable (c : Car) (a : ℚ) :
    (c.adjustSpeedBy a).laneNumber = c.laneNumber ∧
    (c.adjustSpeedBy a).lanePosX = c.lanePosX ∧
    (c.adjustSpeedBy a).distance = c.distance ∧
    (c.adjustSpeedBy a).lastMoved = c.lastMoved ∧
    (c.adjustSpeedBy a).state = c.state := by
  unfold Car.adjustSpeedBy
  dsimp only
  split_ifs <;> exact ⟨rfl, rfl, rfl, rfl, rfl⟩

lemma adjustSpeedBy_speed_nonneg (c : Car) (a : ℚ) : 0 ≤ (c.adjustSpeedBy a).speed := by
  unfold Car.adjustSpeedBy
  dsimp only
  split_ifs with h1 h2
  · norm_num [MAX_SPEED]
  · norm_num
  · dsimp only
    push_neg at h2
    linarith

lemma effectSpeed_stable (c : Car) (r : Road) :
    (effectSpeed c r).laneNumber = c.laneNumber ∧
    (effectSpeed c r).lanePosX = c.lanePosX ∧
    (effectSpeed c r).distance = c.distance ∧
    (effectSpeed c r).lastMoved = c.lastMoved ∧
    (effectSpeed c r).state = c.state := by
  unfold effectSpeed
  dsimp only
  split_ifs
  · exact ⟨rfl, rfl, rfl, rfl, rfl⟩
  · exact adjustSpeedBy_stable _ _
  · exact adjustSpeedBy_stable _ _

lemma effectSpeed_speed_nonneg (c : Car) (r : Road) (h : 0 ≤ c.speed) :
    0 ≤ (effectSpeed c r).speed := by
  unfold effectSpeed
  dsimp only
  split_ifs
  · exact h
  · exact adjustSpeedBy_speed_nonneg _ _
  · exact adjustSpeedBy_speed_nonneg _ _

lemma effectMergeState_stable (c : Car) (r : Road) :
    (effectMergeState c r).laneNumber = c.laneNumber ∧
    (effectMergeState c r).lanePosX = c.lanePosX ∧
    (effectMergeState c r).distance = c.distance ∧
    (effectMergeState c r).lastMoved = c.lastMoved ∧
    (effectMergeState c r).speed = c.speed := by
  unfold effectMergeState
  dsimp only
  split_ifs <;> exact ⟨rfl, rfl, rfl, rfl, rfl⟩

@[simp] lemma stampCar_laneNumber (c : Car) (now : ℚ) :
    (Road.stampCar c now).laneNumber = c.laneNumber := rfl
@[simp] lemma stampCar_lanePosX (c : Car) (now : ℚ) :
    (Road.stampCar c now).lanePosX = c.lanePosX := rfl
@[simp] lemma stampCar_speed (c : Car) (now : ℚ) :
    (Road.stampCar c now).speed = c.speed := rfl
@[simp] lemma stampCar_distance (c : Car) (now : ℚ) :
    (Road.stampCar c now).distance = c.distance := rfl
@[simp] lemma stampCar_state (c : Car) (now : ℚ) :
    (Road.stampCar c now).state = c.state := rfl
@[simp] lemma stampCar_lastMoved (c : Car) (now : ℚ) :
    (Road.stampCar c now).lastMoved = some now := rfl

/-- `alertRearDriver` either leaves the road unchanged or bumps one car's
let-in counter. -/
lemma alertRearDriver_eq (c : Car) (r : Road) (newLane : Nat) :
    alertRearDriver c r newLane = r ∨
    ∃ j, alertRearDriver c r newLane = r.setCar j ((r.carOf j).alertMerge) := by
  unfold alertRearDriver
  split_ifs
  · exact Or.inl rfl
  · exact Or.inl rfl
  · cases findCarBehind (r.roadSpace.getD newLane []) c.lanePosX
    · exact Or.inl rfl
    · exact Or.inr ⟨_, rfl⟩

/-- `alertRearDriver` either leaves the car map unchanged at `j` or bumps
`j`'s let-in counter; everything else about the road is untouched. -/
lemma alertRearDriver_carOf (c : Car) (r : Road) (newLane j : Nat) :
    (alertRearDriver c r newLane).carOf j = r.carOf j ∨
    (alertRearDriver c r newLane).carOf j = (r.carOf j).alertMerge := by
  rcases alertRearDriver_eq c r newLane with h | ⟨k, h⟩
  · rw [h]; exact Or.inl rfl
  · rw [h]
    rcases eq_or_ne j k with rfl | hj
    · rw [setCar_carOf_self]; exact Or.inr rfl
    · rw [setCar_carOf_ne _ _ _ hj]; exact Or.inl rfl

@[simp] lemma alertRearDriver_roadSpace (c : Car) (r : Road) (newLane : Nat) :
    (alertRearDriver c r newLane).roadSpace = r.roadSpace := by
  rcases alertRearDriver_eq c r newLane with h | ⟨k, h⟩ <;> simp [h]

@[simp] lemma alertRearDriver_cars (c : Car) (r : Road) (newLane : Nat) :
    (alertRearDriver c r newLane).cars = r.cars := by
  rcases alertRearDriver_eq c r newLane with h | ⟨k, h⟩ <;> simp [h]

@[simp] lemma alertRearDriver_spaceSize (c : Car) (r : Road) (newLane : Nat) :
    (alertRearDriver c r newLane).spaceSize = r.spaceSize := by
  rcases alertRearDriver_eq c r newLane with h | ⟨k, h⟩ <;> simp [h]

@[simp] lemma alertRearDriver_blockedLanes (c : Car) (r : Road) (newLane : Nat) :
    (alertRearDriver c r newLane).blockedLanes = r.blockedLanes := by
  rcases alertRearDriver_eq c r newLane with h | ⟨k, h⟩ <;> simp [h]

/-! ### The grid invariants -/

/-- Structural well-formedness: every lane has exactly `ROAD_WIDTH` cells
and the cell length is positive (as set up by the `Road` constructor). -/
def WF (r : Road) : Prop :=
  (∀ i, i < r.roadSpace.length → ((r.roadSpace.getD i [] : List Cell)).length = ROAD_WIDTH) ∧
  0 < r.spaceSize

/-- The claim's per-car grid property: a cell holds car `id`'s reference
exactly at the car's recorded `(lane, position)` — i.e. there is exactly
one such cell and its coordinates match the record. -/
def carConsistent (r : Road) (id : Nat) : Prop :=
  ∀ i j, cellAt r i j = Cell.car id ↔
    i = (r.carOf id).laneNumber ∧ j = (r.carOf id).lanePosX

/-- Every car reference on the grid belongs to a listed car. -/
def GhostFree (r : Road) : Prop :=
  ∀ i j id, cellAt r i j = Cell.car id → id ∈ r.cars

/-- The desired cell position computed by `driveCar` from a car's
cumulative distance: `floor(distance / spaceSize) - 1`, floored at `0`. -/
def desiredOf (c : Car) (s : ℚ) : ℤ := max (⌊c.distance / s⌋ - 1) 0

/-- Auxiliary per-car facts that hold at every reachable tick boundary:
nonnegative speed, a recorded position not ahead of the desired position
derived from cumulative distance, and a last-update timestamp in the past. -/
def CarAux (r : Road) (now : ℚ) (id : Nat) : Prop :=
  0 ≤ (r.carOf id).speed ∧
  ((r.carOf id).lanePosX : ℤ) ≤ desiredOf (r.carOf id) r.spaceSize ∧
  ∀ t, (r.carOf id).lastMoved = some t → t ≤ now

/-- The inductive invariant: well-formedness, no duplicate car ids, no
ghost references, and per-car consistency plus the auxiliary facts. -/
def AuxInv (r : Road) (now : ℚ) : Prop :=
  WF r ∧ r.cars.Nodup ∧ GhostFree r ∧ ∀ id ∈ r.cars, carConsistent r id ∧ CarAux r now id

lemma carConsistent_cell {r : Road} {id : Nat} (h : carConsistent r id) :
    cellAt r (r.carOf id).laneNumber (r.carOf id).lanePosX = Cell.car id :=
  (h _ _).mpr ⟨rfl, rfl⟩

lemma carConsistent_bounds {r : Road} {id : Nat} (hw : WF r) (h : carConsistent r id) :
    (r.carOf id).laneNumber < r.roadSpace.length ∧ (r.carOf id).lanePosX < ROAD_WIDTH := by
  obtain ⟨h1, h2⟩ := cellAt_car_bounds (carConsistent_cell h)
  exact ⟨h1, by rw [← hw.1 _ h1]; exact h2⟩

@[simp] lemma cellAt_setCar (r : Road) (id : Nat) (c : Car) (i j : Nat) :
    cellAt (r.setCar id c) i j = cellAt r i j := rfl

lemma carConsistent_setCar {r : Road} {id : Nat} {c : Car}
    (hl : c.laneNumber = (r.carOf id).laneNumber)
    (hp : c.lanePosX = (r.carOf id).lanePosX) (id' : Nat)
    (h : carConsistent r id') : carConsistent (r.setCar id c) id' := by
  intro i j
  rw [cellAt_setCar]
  rcases eq_or_ne id' id with rfl | hne
  · rw [setCar_carOf_self, hl, hp]
    exact h i j
  · rw [setCar_carOf_ne _ _ _ hne]
    exact h i j

lemma ghostFree_setCar {r : Road} {id : Nat} {c : Car} (h : GhostFree r) :
    GhostFree (r.setCar id c) := fun i j id' hc => h i j id' hc

lemma wf_setCar {r : Road} {id : Nat} {c : Car} (h : WF r) : WF (r.setCar id c) := h

lemma wf_setCell {r : Road} {i j : Nat} {c : Cell} (h : WF r) : WF (setCell r i j c) := by
  refine ⟨fun i' hi' => ?_, h.2⟩
  rw [setCell_getD_length]
  exact h.1 i' (by simpa using hi')

/-- `alertRearDriver` followed by `alertMerge` on the mover (the lane-change
branch of `setCarPos`) only bumps let-in counters: consistency, ghost
freedom, well-formedness and the auxiliary facts all carry over, and no
car's lane, position, speed, distance or timestamp changes. -/
lemma alertPhase_carOf_stable (c0 : Car) (r : Road) (newLane j : Nat) :
    ((alertRearDriver c0 r newLane).carOf j).laneNumber = (r.carOf j).laneNumber ∧
    ((alertRearDriver c0 r newLane).carOf j).lanePosX = (r.carOf j).lanePosX ∧
    ((alertRearDriver c0 r newLane).carOf j).speed = (r.carOf j).speed ∧
    ((alertRearDriver c0 r newLane).carOf j).distance = (r.carOf j).distance ∧
    ((alertRearDriver c0 r newLane).carOf j).lastMoved = (r.carOf j).lastMoved := by
  rcases alertRearDriver_carOf c0 r newLane j with h | h <;> rw [h] <;> simp

lemma carAux_setCar {r : Road} {now : ℚ} {id : Nat} {c : Car}
    (hsp : 0 ≤ c.speed)
    (hpos : (c.lanePosX : ℤ) ≤ desiredOf c r.spaceSize)
    (hlm : ∀ t, c.lastMoved = some t → t ≤ now)
    (id' : Nat) (h : CarAux r now id') : CarAux (r.setCar id c) now id' := by
  rcases eq_or_ne id' id with rfl | hne
  · refine ⟨?_, ?_, ?_⟩ <;> rw [setCar_carOf_self] <;> first
      | exact hsp
      | exact hpos
      | exact hlm
  · refine ⟨?_, ?_, ?_⟩ <;> rw [setCar_carOf_ne _ _ _ hne] <;> first
      | exact h.1
      | exact h.2.1
      | exact h.2.2

/-! ### Characterization of `setCarPos` -/

@[simp] lemma alertPhase_roadSpace (r : Road) (id lane : Nat) :
    (r.alertPhase id lane).roadSpace = r.roadSpace := by
  unfold Road.alertPhase
  split_ifs <;> simp

@[simp] lemma alertPhase_cars (r : Road) (id lane : Nat) :
    (r.alertPhase id lane).cars = r.cars := by
  unfold Road.alertPhase
  split_ifs <;> simp

@[simp] lemma alertPhase_spaceSize (r : Road) (id lane : Nat) :
    (r.alertPhase id lane).spaceSize = r.spaceSize := by
  unfold Road.alertPhase
  split_ifs <;> simp

@[simp] lemma alertPhase_blockedLanes (r : Road) (id lane : Nat) :
    (r.alertPhase id lane).blockedLanes = r.blockedLanes := by
  unfold Road.alertPhase
  split_ifs <;> simp

@[simp] lemma cellAt_alertPhase (r : Road) (id lane : Nat) (i j : Nat) :
    cellAt (r.alertPhase id lane) i j = cellAt r i j := by
  rw [cellAt_def, cellAt_def, alertPhase_roadSpace]

/-- Every car's kinematic fields survive the alert phase; only let-in
counters may change. -/
lemma alertPhase_carOf_fields (r : Road) (id lane j : Nat) :
    ((r.alertPhase id lane).carOf j).laneNumber = (r.carOf j).laneNumber ∧
    ((r.alertPhase id lane).carOf j).lanePosX = (r.carOf j).lanePosX ∧
    ((r.alertPhase id lane).carOf j).speed = (r.carOf j).speed ∧
    ((r.alertPhase id lane).carOf j).distance = (r.carOf j).distance ∧
    ((r.alertPhase id lane).carOf j).lastMoved = (r.carOf j).lastMoved := by
  unfold Road.alertPhase
  split_ifs
  · have hA := alertPhase_carOf_stable (r.carOf id) r lane j
    rcases eq_or_ne j id with rfl | hne
    · rw [setCar_carOf_self]
      simpa using hA
    · rw [setCar_carOf_ne _ _ _ hne]
      exact hA
  · exact ⟨rfl, rfl, rfl, rfl, rfl⟩

lemma alertPhase_carConsistent {r : Road} {id lane : Nat} (id' : Nat)
    (h : carConsistent r id') : carConsistent (r.alertPhase id lane) id' := by
  intro i j
  rw [cellAt_alertPhase]
  obtain ⟨hl, hp, -⟩ := alertPhase_carOf_fields r id lane id'
  rw [hl, hp]
  exact h i j

lemma alertPhase_ghostFree {r : Road} {id lane : Nat} (h : GhostFree r) :
    GhostFree (r.alertPhase id lane) := by
  intro i j id' hc
  rw [cellAt_alertPhase] at hc
  rw [alertPhase_cars]
  exact h i j id' hc

lemma alertPhase_wf {r : Road} {id lane : Nat} (h : WF r) : WF (r.alertPhase id lane) := by
  constructor
  · intro i hi
    rw [alertPhase_roadSpace] at hi ⊢
    exact h.1 i hi
  · rw [alertPhase_spaceSize]
    exact h.2

lemma alertPhase_carAux {r : Road} {now : ℚ} {id lane : Nat} (id' : Nat)
    (h : CarAux r now id') : CarAux (r.alertPhase id lane) now id' := by
  obtain ⟨hl, hp, hs, hd, hm⟩ := alertPhase_carOf_fields r id lane id'
  refine ⟨?_, ?_, ?_⟩
  · rw [hs]; exact h.1
  · rw [hp]
    show _ ≤ desiredOf _ (r.alertPhase id lane).spaceSize
    rw [alertPhase_spaceSize]
    unfold desiredOf
    rw [hd]
    exact h.2.1
  · rw [hm]; exact h.2.2

/-- Out-of-bounds destination: `setCarPos` is a pure `-1` no-op. -/
lemma setCarPos_oob (r : Road) (id lane laneX : Nat)
    (h : lane ≥ r.roadSpace.length ∨ laneX ≥ ROAD_WIDTH) :
    r.setCarPos id lane laneX = (r, -1) := by
  unfold Road.setCarPos
  rw [if_pos h]

/-- Out-of-bounds current coordinates: `setCarPos` is a pure `-1` no-op. -/
lemma setCarPos_curOob (r : Road) (id lane laneX : Nat)
    (h1 : ¬(lane ≥ r.roadSpace.length ∨ laneX ≥ ROAD_WIDTH))
    (h2 : (r.carOf id).laneNumber ≥ r.roadSpace.length ∨ (r.carOf id).lanePosX ≥ ROAD_WIDTH) :
    r.setCarPos id lane laneX = (r, -1) := by
  unfold Road.setCarPos
  rw [if_neg h1]
  dsimp only
  rw [if_pos h2]

/-- In-bounds unfolding of `setCarPos` through its named phases. -/
lemma setCarPos_inbounds (r : Road) (id lane laneX : Nat)
    (h1 : ¬(lane ≥ r.roadSpace.length ∨ laneX ≥ ROAD_WIDTH))
    (h2 : ¬((r.carOf id).laneNumber ≥ r.roadSpace.length ∨
            (r.carOf id).lanePosX ≥ ROAD_WIDTH)) :
    r.setCarPos id lane laneX =
      (let r2 := setCell (r.alertPhase id lane)
         (r.carOf id).laneNumber (r.carOf id).lanePosX Cell.empty
       if cellAt r2 lane laneX ≠ Cell.empty then (r2, -1)
       else
         let r3 := setCell r2 lane laneX (Cell.car id)
         (r3.setCar id { r3.carOf id with laneNumber := lane, lanePosX := laneX }, 0)) := by
  unfold Road.setCarPos
  rw [if_neg h1]
  dsimp only
  rw [if_neg h2]

/-- A successful `setCarPos` (destination empty, or the car's own cell):
returns `0`, moves the reference from the old cell to the destination,
updates the recorded coordinates, and touches nothing else besides let-in
counters. -/
lemma setCarPos_success_spec (r : Road) (id lane laneX : Nat) (hw : WF r)
    (h1 : lane < r.roadSpace.length) (h2 : laneX < ROAD_WIDTH)
    (h3 : (r.carOf id).laneNumber < r.roadSpace.length)
    (h4 : (r.carOf id).lanePosX < ROAD_WIDTH)
    (hdest : cellAt r lane laneX = Cell.empty ∨
      (lane = (r.carOf id).laneNumber ∧ laneX = (r.carOf id).lanePosX)) :
    (r.setCarPos id lane laneX).2 = 0 ∧
    (r.setCarPos id lane laneX).1.cars = r.cars ∧
    (r.setCarPos id lane laneX).1.spaceSize = r.spaceSize ∧
    (r.setCarPos id lane laneX).1.blockedLanes = r.blockedLanes ∧
    WF (r.setCarPos id lane laneX).1 ∧
    (∀ i j, cellAt (r.setCarPos id lane laneX).1 i j =
      if i = lane ∧ j = laneX then Cell.car id
      else if i = (r.carOf id).laneNumber ∧ j = (r.carOf id).lanePosX then Cell.empty
      else cellAt r i j) ∧
    ((r.setCarPos id lane laneX).1.carOf id).laneNumber = lane ∧
    ((r.setCarPos id lane laneX).1.carOf id).lanePosX = laneX ∧
    (∀ j, j ≠ id →
      ((r.setCarPos id lane laneX).1.carOf j).laneNumber = (r.carOf j).laneNumber ∧
      ((r.setCarPos id lane laneX).1.carOf j).lanePosX = (r.carOf j).lanePosX) ∧
    (∀ j, ((r.setCarPos id lane laneX).1.carOf j).speed = (r.carOf j).speed ∧
      ((r.setCarPos id lane laneX).1.carOf j).distance = (r.carOf j).distance ∧
      ((r.setCarPos id lane laneX).1.carOf j).lastMoved = (r.carOf j).lastMoved) := by
  have hb1 : ¬(lane ≥ r.roadSpace.length ∨ laneX ≥ ROAD_WIDTH) := by omega
  have hb2 : ¬((r.carOf id).laneNumber ≥ r.roadSpace.length ∨
      (r.carOf id).lanePosX ≥ ROAD_WIDTH) := by omega
  rw [setCarPos_inbounds r id lane laneX hb1 hb2]
  dsimp only
  have hA3 : (r.carOf id).laneNumber < (r.alertPhase id lane).roadSpace.length := by
    rw [alertPhase_roadSpace]; exact h3
  have hA4 : (r.carOf id).lanePosX <
      (((r.alertPhase id lane).roadSpace.getD (r.carOf id).laneNumber [] : List Cell)).length := by
    rw [alertPhase_roadSpace, hw.1 _ h3]; exact h4
  set r2 := setCell (r.alertPhase id lane)
    (r.carOf id).laneNumber (r.carOf id).lanePosX Cell.empty with hr2
  have hcell2 : ∀ i j, cellAt r2 i j =
      if i = (r.carOf id).laneNumber ∧ j = (r.carOf id).lanePosX then Cell.empty
      else cellAt r i j := by
    intro i j
    rw [hr2, cellAt_setCell]
    by_cases hij : i = (r.carOf id).laneNumber ∧ j = (r.carOf id).lanePosX
    · obtain ⟨hi, hj⟩ := hij
      rw [if_pos ⟨hi.symm, hj.symm, hA3, hA4⟩, if_pos ⟨hi, hj⟩]
    · rw [if_neg (fun hc => hij ⟨hc.1.symm, hc.2.1.symm⟩), if_neg hij, cellAt_alertPhase]
  have hv : cellAt r2 lane laneX = Cell.empty := by
    rw [hcell2]
    rcases hdest with hd | hd
    · split_ifs with h
      · rfl
      · exact hd
    · rw [if_pos hd]
  rw [if_neg (by simpa using hv)]
  dsimp only
  have hlen2 : r2.roadSpace.length = r.roadSpace.length := by
    rw [hr2]; simp
  have hlane1 : lane < r2.roadSpace.length := by omega
  have hlane2 : laneX < ((r2.roadSpace.getD lane [] : List Cell)).length := by
    rw [hr2, setCell_getD_length, alertPhase_roadSpace, hw.1 lane h1]
    exact h2
  set r3 := setCell r2 lane laneX (Cell.car id) with hr3
  have hcell3 : ∀ i j, cellAt r3 i j =
      if i = lane ∧ j = laneX then Cell.car id
      else cellAt r2 i j := by
    intro i j
    rw [hr3, cellAt_setCell]
    by_cases hij : i = lane ∧ j = laneX
    · obtain ⟨hi, hj⟩ := hij
      rw [if_pos ⟨hi.symm, hj.symm, hlane1, hj ▸ hlane2⟩, if_pos ⟨hi, hj⟩]
    · rw [if_neg (fun hc => hij ⟨hc.1.symm, hc.2.1.symm⟩), if_neg hij]
  have hcarOf3 : ∀ j, r3.carOf j = (r.alertPhase id lane).carOf j := by
    intro j; rw [hr3, hr2]; rfl
  refine ⟨rfl, ?_, ?_, ?_, ?_, ?_, ?_, ?_, ?_, ?_⟩
  · show r3.cars = r.cars
    rw [hr3, hr2]; simp
  · show r3.spaceSize = r.spaceSize
    rw [hr3, hr2]; simp
  · show r3.blockedLanes = r.blockedLanes
    rw [hr3, hr2]; simp
  · apply wf_setCar
    rw [hr3, hr2]
    exact wf_setCell (wf_setCell (alertPhase_wf hw))
  · intro i j
    rw [cellAt_setCar, hcell3, hcell2]
  · rw [setCar_carOf_self]
  · rw [setCar_carOf_self]
  · intro j hj
    rw [setCar_carOf_ne _ _ _ hj, hcarOf3]
    obtain ⟨ha, hb, -⟩ := alertPhase_carOf_fields r id lane j
    exact ⟨ha, hb⟩
  · intro j
    obtain ⟨-, -, hs, hd, hm⟩ := alertPhase_carOf_fields r id lane j
    rcases eq_or_ne j id with rfl | hj
    · rw [setCar_carOf_self]
      refine ⟨?_, ?_, ?_⟩
      · show (r3.carOf j).speed = _
        rw [hcarOf3]; exact hs
      · show (r3.carOf j).distance = _
        rw [hcarOf3]; exact hd
      · show (r3.carOf j).lastMoved = _
        rw [hcarOf3]; exact hm
    · rw [setCar_carOf_ne _ _ _ hj, hcarOf3]
      exact ⟨hs, hd, hm⟩

/-- A `setCarPos` that fails the occupancy check (in-bounds destination,
distinct from the car's own cell, and occupied): returns `-1` but has
already vacated the car's current cell; the destination, every other cell,
and every car's recorded coordinates are unchanged. -/
lemma setCarPos_occupied_spec (r : Road) (id lane laneX : Nat) (hw : WF r)
    (h1 : lane < r.roadSpace.length) (h2 : laneX < ROAD_WIDTH)
    (h3 : (r.carOf id).laneNumber < r.roadSpace.length)
    (h4 : (r.carOf id).lanePosX < ROAD_WIDTH)
    (hne : ¬(lane = (r.carOf id).laneNumber ∧ laneX = (r.carOf id).lanePosX))
    (hdest : cellAt r lane laneX ≠ Cell.empty) :
    (r.setCarPos id lane laneX).2 = -1 ∧
    (∀ i j, cellAt (r.setCarPos id lane laneX).1 i j =
      if i = (r.carOf id).laneNumber ∧ j = (r.carOf id).lanePosX then Cell.empty
      else cellAt r i j) ∧
    (r.setCarPos id lane laneX).1.cars = r.cars ∧
    (∀ j, ((r.setCarPos id lane laneX).1.carOf j).laneNumber = (r.carOf j).laneNumber ∧
      ((r.setCarPos id lane laneX).1.carOf j).lanePosX = (r.carOf j).lanePosX ∧
      ((r.setCarPos id lane laneX).1.carOf j).speed = (r.carOf j).speed ∧
      ((r.setCarPos id lane laneX).1.carOf j).distance = (r.carOf j).distance ∧
      ((r.setCarPos id lane laneX).1.carOf j).lastMoved = (r.carOf j).lastMoved) := by
  have hb1 : ¬(lane ≥ r.roadSpace.length ∨ laneX ≥ ROAD_WIDTH) := by omega
  have hb2 : ¬((r.carOf id).laneNumber ≥ r.roadSpace.length ∨
      (r.carOf id).lanePosX ≥ ROAD_WIDTH) := by omega
  rw [setCarPos_inbounds r id lane laneX hb1 hb2]
  dsimp only
  have hA3 : (r.carOf id).laneNumber < (r.alertPhase id lane).roadSpace.length := by
    rw [alertPhase_roadSpace]; exact h3
  have hA4 : (r.carOf id).lanePosX <
      (((r.alertPhase id lane).roadSpace.getD (r.carOf id).laneNumber [] : List Cell)).length := by
    rw [alertPhase_roadSpace, hw.1 _ h3]; exact h4
  set r2 := setCell (r.alertPhase id lane)
    (r.carOf id).laneNumber (r.carOf id).lanePosX Cell.empty with hr2
  have hcell2 : ∀ i j, cellAt r2 i j =
      if i = (r.carOf id).laneNumber ∧ j = (r.carOf id).lanePosX then Cell.empty
      else cellAt r i j := by
    intro i j
    rw [hr2, cellAt_setCell]
    by_cases hij : i = (r.carOf id).laneNumber ∧ j = (r.carOf id).lanePosX
    · obtain ⟨hi, hj⟩ := hij
      rw [if_pos ⟨hi.symm, hj.symm, hA3, hA4⟩, if_pos ⟨hi, hj⟩]
    · rw [if_neg (fun hc => hij ⟨hc.1.symm, hc.2.1.symm⟩), if_neg hij, cellAt_alertPhase]
  have hv : cellAt r2 lane laneX ≠ Cell.empty := by
    rw [hcell2, if_neg hne]
    exact hdest
  rw [if_pos (by simpa using hv)]
  refine ⟨rfl, ?_, ?_, ?_⟩
  · intro i j
    exact hcell2 i j
  · show r2.cars = r.cars
    rw [hr2]; simp
  · intro j
    have h5 : r2.carOf j = (r.alertPhase id lane).carOf j := by rw [hr2]; rfl
    show (r2.carOf j).laneNumber = _ ∧ _
    rw [h5]
    exact alertPhase_carOf_fields r id lane j

/-! ### Invariant preservation -/

lemma desiredOf_mono {c c' : Car} {s : ℚ} (hs : 0 < s) (h : c.distance ≤ c'.distance) :
    desiredOf c s ≤ desiredOf c' s := by
  unfold desiredOf
  have : ⌊c.distance / s⌋ ≤ ⌊c'.distance / s⌋ :=
    Int.floor_le_floor (by exact div_le_div_of_nonneg_right h hs.le)
  omega

lemma setCarPos_success_auxInv {r : Road} {now : ℚ} {id lane laneX : Nat}
    (hI : AuxInv r now) (hid : id ∈ r.cars)
    (h1 : lane < r.roadSpace.length) (h2 : laneX < ROAD_WIDTH)
    (hdest : cellAt r lane laneX = Cell.empty ∨
      (lane = (r.carOf id).laneNumber ∧ laneX = (r.carOf id).lanePosX))
    (hpos : (laneX : ℤ) ≤ desiredOf (r.carOf id) r.spaceSize) :
    AuxInv (r.setCarPos id lane laneX).1 now ∧
    (r.setCarPos id lane laneX).1.cars = r.cars ∧
    (r.setCarPos id lane laneX).1.spaceSize = r.spaceSize := by
  obtain ⟨hw, hnd, hgf, hcars⟩ := hI
  obtain ⟨hcons, haux⟩ := hcars id hid
  obtain ⟨h3, h4⟩ := carConsistent_bounds hw hcons
  obtain ⟨hres, hcars', hss, hbl, hwf', hcell, hlid, hpid, hoth, hstab⟩ :=
    setCarPos_success_spec r id lane laneX hw h1 h2 h3 h4 hdest
  refine ⟨⟨hwf', by rw [hcars']; exact hnd, ?_, ?_⟩, hcars', hss⟩
  · -- ghost freedom
    intro i j id' hc
    rw [hcell i j] at hc
    rw [hcars']
    by_cases ha : i = lane ∧ j = laneX
    · rw [if_pos ha] at hc
      injection hc with h
      exact h ▸ hid
    · rw [if_neg ha] at hc
      by_cases hb : i = (r.carOf id).laneNumber ∧ j = (r.carOf id).lanePosX
      · rw [if_pos hb] at hc
        exact Cell.noConfusion hc
      · rw [if_neg hb] at hc
        exact hgf i j id' hc
  · intro id' hid'
    rw [hcars'] at hid'
    have hcons' := (hcars id' hid').1
    have haux' := (hcars id' hid').2
    constructor
    · -- consistency
      intro i j
      rw [hcell i j]
      rcases eq_or_ne id' id with rfl | hne
      · rw [hlid, hpid]
        by_cases ha : i = lane ∧ j = laneX
        · rw [if_pos ha]
          simp [ha]
        · rw [if_neg ha]
          by_cases hb : i = (r.carOf id').laneNumber ∧ j = (r.carOf id').lanePosX
          · rw [if_pos hb]
            exact ⟨fun hc => Cell.noConfusion hc, fun hc => absurd hc ha⟩
          · rw [if_neg hb]
            constructor
            · intro hc
              exact absurd ((hcons i j).mp hc) hb
            · intro hc
              exact absurd hc ha
      · obtain ⟨hl2, hp2⟩ := hoth id' hne
        rw [hl2, hp2]
        have hcellcur : cellAt r (r.carOf id).laneNumber (r.carOf id).lanePosX = Cell.car id :=
          carConsistent_cell hcons
        by_cases ha : i = lane ∧ j = laneX
        · rw [if_pos ha]
          constructor
          · intro hc
            injection hc with h
            exact absurd h.symm hne
          · intro hc
            -- id''s recorded cell held id''s reference in `r`, but the
            -- destination was empty or id's own cell
            exfalso
            have hcl : cellAt r i j = Cell.car id' := (hcons' i j).mpr hc
            rcases hdest with hd | hd
            · rw [ha.1, ha.2, hd] at hcl
              exact Cell.noConfusion hcl
            · rw [ha.1, ha.2, hd.1, hd.2, hcellcur] at hcl
              injection hcl with h
              exact hne h.symm
        · rw [if_neg ha]
          by_cases hb : i = (r.carOf id).laneNumber ∧ j = (r.carOf id).lanePosX
          · rw [if_pos hb]
            constructor
            · intro hc; exact Cell.noConfusion hc
            · intro hc
              exfalso
              have hcl : cellAt r i j = Cell.car id' := (hcons' i j).mpr hc
              rw [hb.1, hb.2, hcellcur] at hcl
              injection hcl with h
              exact hne h.symm
          · rw [if_neg hb]
            exact hcons' i j
    · -- auxiliary facts
      obtain ⟨hsp, hds, hlm⟩ := hstab id'
      rcases eq_or_ne id' id with rfl | hne
      · refine ⟨by rw [hsp]; exact haux'.1, ?_, by rw [hlm]; exact haux'.2.2⟩
        rw [hpid]
        show _ ≤ desiredOf _ (r.setCarPos id' lane laneX).1.spaceSize
        rw [hss]
        unfold desiredOf
        rw [hds]
        exact hpos
      · refine ⟨by rw [hsp]; exact haux'.1, ?_, by rw [hlm]; exact haux'.2.2⟩
        rw [(hoth id' hne).2]
        show _ ≤ desiredOf _ (r.setCarPos id lane laneX).1.spaceSize
        rw [hss]
        unfold desiredOf
        rw [hds]
        exact haux'.2.1

/-- `merge` preserves the full invariant (for a listed car) and touches
neither the car list nor the configuration. -/
lemma merge_auxInv {r : Road} {now : ℚ} {id : Nat}
    (hI : AuxInv r now) (hid : id ∈ r.cars) :
    AuxInv (r.merge id) now ∧ (r.merge id).cars = r.cars ∧
    (r.merge id).spaceSize = r.spaceSize := by
  unfold Road.merge
  dsimp only
  split_ifs with h0 hsp
  · exact ⟨hI, rfl, rfl⟩
  · -- beside cell open: the commit succeeds
    have hcons := (hI.2.2.2 id hid).1
    have haux := (hI.2.2.2 id hid).2
    obtain ⟨h3, h4⟩ := carConsistent_bounds hI.1 hcons
    exact setCarPos_success_auxInv hI hid (by omega) h4 (Or.inl hsp)
      (le_trans (by exact_mod_cast Nat.cast_le.mpr (le_refl _)) haux.2.1)
  · exact ⟨hI, rfl, rfl⟩

lemma unfold_desiredOf (c : Car) (s : ℚ) : desiredOf c s = max (⌊c.distance / s⌋ - 1) 0 := rfl

lemma setCar_auxInv {r : Road} {now : ℚ} {id : Nat} {c : Car} (hI : AuxInv r now)
    (hl : c.laneNumber = (r.carOf id).laneNumber)
    (hp : c.lanePosX = (r.carOf id).lanePosX)
    (hs : 0 ≤ c.speed)
    (hd : (c.lanePosX : ℤ) ≤ desiredOf c r.spaceSize)
    (hm : ∀ t, c.lastMoved = some t → t ≤ now) :
    AuxInv (r.setCar id c) now := by
  obtain ⟨hw, hnd, hgf, hcars⟩ := hI
  refine ⟨wf_setCar hw, hnd, ghostFree_setCar hgf, ?_⟩
  intro id' hid'
  have hid'' : id' ∈ r.cars := hid'
  exact ⟨carConsistent_setCar hl hp id' (hcars id' hid'').1,
         carAux_setCar hs hd hm id' (hcars id' hid'').2⟩

/-- The post-accumulation phase of `Car.drive` preserves the invariant. -/
lemma driveRest_auxInv {r : Road} {now : ℚ} {id : Nat}
    (hI : AuxInv r now) (hid : id ∈ r.cars) :
    AuxInv (r.driveRest now id) now ∧ (r.driveRest now id).cars = r.cars ∧
    (r.driveRest now id).spaceSize = r.spaceSize := by
  have haux := (hI.2.2.2 id hid).2
  have hdes := haux.2.1
  rw [unfold_desiredOf] at hdes
  unfold Road.driveRest
  dsimp only
  set C2 := effectSpeed (r.carOf id) r with hC2
  set R2 := r.setCar id C2 with hR2
  set C3 := effectMergeState C2 R2 with hC3
  set R3 := R2.setCar id C3 with hR3
  set C4 : Car := Road.stampCar C3 now with hC4
  set R4 := R3.setCar id C4 with hR4
  obtain ⟨hs2l, hs2p, hs2d, hs2m, hs2s⟩ := effectSpeed_stable (r.carOf id) r
  obtain ⟨hs3l, hs3p, hs3d, hs3m, hs3sp⟩ := effectMergeState_stable C2 R2
  have hC2sp : 0 ≤ C2.speed := by
    rw [hC2]; exact effectSpeed_speed_nonneg _ _ haux.1
  have h2 : AuxInv R2 now := by
    rw [hR2]
    refine setCar_auxInv hI hs2l hs2p hC2sp ?_ ?_
    · rw [unfold_desiredOf, hs2p, hs2d]
      exact hdes
    · intro t ht
      rw [hs2m] at ht
      exact haux.2.2 t ht
  have hR2ss : R2.spaceSize = r.spaceSize := by rw [hR2]; rfl
  have hR2cars : R2.cars = r.cars := by rw [hR2]; rfl
  have hR2id : R2.carOf id = C2 := by rw [hR2]; exact setCar_carOf_self _ _ _
  have h3 : AuxInv R3 now := by
    rw [hR3]
    refine setCar_auxInv h2 ?_ ?_ ?_ ?_ ?_
    · rw [hR2id]; exact hs3l
    · rw [hR2id]; exact hs3p
    · rw [hs3sp]; exact hC2sp
    · rw [unfold_desiredOf, hs3p, hs3d, hR2ss, hs2p, hs2d]
      exact hdes
    · intro t ht
      rw [hs3m, hs2m] at ht
      exact haux.2.2 t ht
  have hR3ss : R3.spaceSize = r.spaceSize := by rw [hR3, hR2]; rfl
  have hR3cars : R3.cars = r.cars := by rw [hR3, hR2]; rfl
  have hR3id : R3.carOf id = C3 := by rw [hR3]; exact setCar_carOf_self _ _ _
  have h4 : AuxInv R4 now := by
    rw [hR4]
    refine setCar_auxInv h3 ?_ ?_ ?_ ?_ ?_
    · rw [hC4, stampCar_laneNumber, hR3id]
    · rw [hC4, stampCar_lanePosX, hR3id]
    · rw [hC4, stampCar_speed, hs3sp]
      exact hC2sp
    · rw [hC4, unfold_desiredOf, stampCar_lanePosX, stampCar_distance,
        hs3p, hs3d, hR3ss, hs2p, hs2d]
      exact hdes
    · rw [hC4]
      intro t ht
      rw [stampCar_lastMoved] at ht
      injection ht with h
      exact h ▸ le_refl now
  have hR4ss : R4.spaceSize = r.spaceSize := by rw [hR4]; exact hR3ss
  have hR4cars : R4.cars = r.cars := by rw [hR4]; exact hR3cars
  split_ifs with hmg
  · obtain ⟨hA, hc, hs⟩ := merge_auxInv h4 (show id ∈ R4.cars by rw [hR4cars]; exact hid)
    exact ⟨hA, by rw [hc, hR4cars], by rw [hs, hR4ss]⟩
  · exact ⟨h4, hR4cars, hR4ss⟩

/-- `Car.drive` preserves the full invariant for a listed car. -/
lemma drive_auxInv {r : Road} {now : ℚ} {id : Nat}
    (hI : AuxInv r now) (hid : id ∈ r.cars) :
    AuxInv (r.drive now id) now ∧ (r.drive now id).cars = r.cars ∧
    (r.drive now id).spaceSize = r.spaceSize := by
  have haux := (hI.2.2.2 id hid).2
  unfold Road.drive
  rcases hLM : (r.carOf id).lastMoved with _ | t0
  · refine ⟨setCar_auxInv hI rfl rfl haux.1 haux.2.1 ?_, rfl, rfl⟩
    intro t ht
    injection ht with h
    exact h ▸ le_refl now
  · have helapsed : 0 ≤ now - t0 := by
      have := haux.2.2 t0 hLM
      linarith
    have hgrow : (r.carOf id).distance ≤
        (r.carOf id).distance + (r.carOf id).speed * ((now - t0) / 1000) := by
      have : 0 ≤ (r.carOf id).speed * ((now - t0) / 1000) :=
        mul_nonneg haux.1 (by positivity)
      linarith
    have h1 : AuxInv (r.setCar id
        { r.carOf id with
          distance := (r.carOf id).distance + (r.carOf id).speed * ((now - t0) / 1000) }) now := by
      refine setCar_auxInv hI rfl rfl haux.1 ?_ ?_
      · exact le_trans haux.2.1 (desiredOf_mono hI.1.2 hgrow)
      · intro t ht
        exact haux.2.2 t ht
    obtain ⟨hA, hc, hs⟩ := driveRest_auxInv h1 (show id ∈ _ from hid)
    exact ⟨hA, hc, hs⟩

/-- `driveCar` preserves the full invariant for a listed car: every
forward commit is either onto an empty cell (the clamp guarantees it), or
rejected out of bounds before any state is touched. -/
lemma driveCar_auxInv {r : Road} {now : ℚ} {id : Nat}
    (hI : AuxInv r now) (hid : id ∈ r.cars) :
    AuxInv (r.driveCar now id).1 now ∧ (r.driveCar now id).1.cars = r.cars ∧
    (r.driveCar now id).1.spaceSize = r.spaceSize := by
  obtain ⟨hA1, hcars1, hss1⟩ := drive_auxInv hI hid
  unfold Road.driveCar
  dsimp only
  set r1 := r.drive now id with hr1
  have hid1 : id ∈ r1.cars := by rw [hcars1]; exact hid
  set c1 := r1.carOf id with hc1
  obtain ⟨hlane, hposb⟩ := carConsistent_bounds hA1.1 (hA1.2.2.2 id hid1).1
  rw [← hc1] at hlane hposb
  have hdes : ((c1.lanePosX : ℤ)) ≤ desiredOf c1 r1.spaceSize := by
    have := (hA1.2.2.2 id hid1).2.2.1
    rw [← hc1] at this
    exact this
  set d0 : ℤ := ⌊c1.distance / r1.spaceSize⌋ - 1 with hd0
  have hdesired : (if d0 < 0 then 0 else d0) = desiredOf c1 r1.spaceSize := by
    rw [unfold_desiredOf, ← hd0]
    split_ifs <;> omega
  set A0 := getDistance r1 c1.laneNumber c1.lanePosX SpaceType.All with hA0
  set avail : ℤ := if A0 < 0 then (ROAD_WIDTH : ℤ) else A0 with havail
  set safe : ℤ := min (if d0 < 0 then 0 else d0) ((c1.lanePosX : ℤ) + avail) with hsafeEq
  by_cases hne : (if d0 < 0 then 0 else d0) ≠ ((c1.lanePosX : ℤ))
  · rw [if_pos hne]
    by_cases hsf : safe ≠ ((c1.lanePosX : ℤ))
    · rw [if_pos hsf]
      dsimp only
      rcases Nat.lt_or_ge safe.toNat ROAD_WIDTH with hin | hout
      · -- in-bounds commit: the destination cell is empty
        have havail0 : 0 ≤ avail := by
          rw [havail]
          split_ifs with h
          · norm_num [ROAD_WIDTH]
          · omega
        have hsafe0 : 0 ≤ safe := by
          rw [hsafeEq]
          refine le_min ?_ (by positivity)
          split_ifs <;> omega
        have hsafege : (c1.lanePosX : ℤ) ≤ safe := by
          rw [hsafeEq]
          refine le_min ?_ (by omega)
          rw [hdesired]
          exact hdes
        have hsafegt : (c1.lanePosX : ℤ) < safe := by
          rcases lt_or_eq_of_le hsafege with h | h
          · exact h
          · exact absurd h.symm hsf
        obtain ⟨L0, hLD⟩ : ∃ L0, getLaneData r1 c1.laneNumber = some L0 := by
          rw [getLaneData_eq]
          exact ⟨_, List.getElem?_eq_getElem hlane⟩
        have hLDlen : L0.length = ROAD_WIDTH := by
          have h := hA1.1.1 c1.laneNumber hlane
          have hLD2 := hLD
          rw [getLaneData_eq] at hLD2
          rw [List.getD_eq_getElem?_getD, hLD2] at h
          simpa using h
        have hsafeN : (safe.toNat : ℤ) = safe := Int.toNat_of_nonneg hsafe0
        have hRW : ROAD_WIDTH = 50 := rfl
        have hsafele : safe ≤ (c1.lanePosX : ℤ) + avail := by
          rw [hsafeEq]; exact min_le_right _ _
        have hA0nonneg : 0 ≤ A0 := by
          rw [hA0]
          by_contra hc
          push_neg at hc
          have hlen := getDistance_neg hLD hc
          rw [hLDlen] at hlen
          -- the car sits on the last cell, so the clamped target is out of bounds
          have h1 : ((ROAD_WIDTH : ℕ) : ℤ) ≤ (c1.lanePosX : ℤ) + 1 := by exact_mod_cast hlen
          have h2 : ((ROAD_WIDTH : ℕ) : ℤ) ≤ safe := by linarith [hsafegt]
          have h3 : safe < ((ROAD_WIDTH : ℕ) : ℤ) := by
            rw [← hsafeN]; exact_mod_cast hin
          linarith
        have havailA0 : avail = A0 := by
          rw [havail, if_neg (not_lt.mpr hA0nonneg)]
        have hsafelt : safe < ((ROAD_WIDTH : ℕ) : ℤ) := by
          rw [← hsafeN]; exact_mod_cast hin
        have hposlt : (c1.lanePosX : ℤ) + 1 < ((ROAD_WIDTH : ℕ) : ℤ) := by
          linarith [hsafegt]
        have hposnat : c1.lanePosX < safe.toNat := by
          have : ((c1.lanePosX : ℤ)) < (safe.toNat : ℤ) := by
            rw [hsafeN]; exact hsafegt
          exact_mod_cast this
        have hdest : cellAt r1 c1.laneNumber safe.toNat = Cell.empty := by
          apply getDistance_all_empty_run hLD
            (by rw [hLDlen]; exact_mod_cast hposlt) safe.toNat hposnat
            (by rw [hsafeN, ← hA0]; linarith [hsafele, havailA0.ge, havailA0.le])
            (by rw [hLDlen]; exact hin)
        have hfin := setCarPos_success_auxInv hA1 hid1 hlane hin (Or.inl hdest)
          (by rw [hsafeN, ← hdesired, hsafeEq]
              exact min_le_left _ _)
        refine ⟨hfin.1, ?_, ?_⟩
        · rw [hfin.2.1, hcars1]
        · rw [hfin.2.2, hss1]
      · -- out-of-bounds commit: `setCarPos` rejects without touching anything
        rw [setCarPos_oob _ _ _ _ (Or.inr hout)]
        exact ⟨hA1, hcars1, hss1⟩
    · rw [if_neg hsf]
      exact ⟨hA1, hcars1, hss1⟩
  · rw [if_neg hne]
    exact ⟨hA1, hcars1, hss1⟩

lemma sortedCars_mem {r : Road} {id : Nat} (h : id ∈ r.sortedCars) : id ∈ r.cars := by
  unfold Road.sortedCars at h
  exact (List.perm_insertionSort _ _).mem_iff.mp h

/-- The per-car phase of `driveCars` preserves the invariant and the car
list. -/
lemma drivePhase_auxInv {r : Road} {now : ℚ} (hI : AuxInv r now) :
    AuxInv (r.drivePhase now).1 now ∧ (r.drivePhase now).1.cars = r.cars := by
  unfold Road.drivePhase
  have hgen : ∀ (l : List Nat) (r0 : Road) (acc : List Nat), AuxInv r0 now →
      (∀ id ∈ l, id ∈ r0.cars) →
      AuxInv ((l.foldl
        (fun acc id =>
          let result := acc.1.driveCar now id
          (result.1, acc.2 ++ result.2.toList)) (r0, acc)).1) now ∧
      ((l.foldl
        (fun acc id =>
          let result := acc.1.driveCar now id
          (result.1, acc.2 ++ result.2.toList)) (r0, acc)).1).cars = r0.cars := by
    intro l
    induction l with
    | nil => exact fun r0 acc hI0 _ => ⟨hI0, rfl⟩
    | cons x xs ih =>
      intro r0 acc hI0 hmem
      rw [List.foldl_cons]
      obtain ⟨hA, hc, -⟩ := driveCar_auxInv hI0 (hmem x (by simp))
      obtain ⟨hA2, hc2⟩ := ih (r0.driveCar now x).1 _ hA
        (fun id hm => by rw [hc]; exact hmem id (List.mem_cons_of_mem _ hm))
      exact ⟨hA2, by rw [hc2, hc]⟩
  exact hgen _ r [] hI (fun id h => sortedCars_mem h)

/-- Component description of a removal step that found a listed car. -/
lemma removeCar_components {r : Road} {t : ℚ} {item : Nat} {id : Nat}
    (hG : r.cars.get? item = some id) :
    (r.removeCar item t).roadSpace =
      (setCell r (r.carOf id).laneNumber (r.carOf id).lanePosX Cell.empty).roadSpace ∧
    (r.removeCar item t).carOf = r.carOf ∧
    (r.removeCar item t).cars = r.cars.eraseIdx item ∧
    (r.removeCar item t).spaceSize = r.spaceSize := by
  unfold Road.removeCar
  rw [hG]
  dsimp only
  rcases (r.carOf id).startTime with _ | st <;> exact ⟨rfl, rfl, rfl, rfl⟩

lemma removeCar_components_none {r : Road} {t : ℚ} {item : Nat}
    (hG : r.cars.get? item = none) :
    r.removeCar item t =
      { r with cars := r.cars.eraseIdx item } := by
  unfold Road.removeCar
  rw [hG]

/-- One removal step preserves the invariant: the removed car's unique
cell is cleared as it is dropped from the list. -/
lemma removeCar_auxInv {r : Road} {now t : ℚ} {item : Nat} (hI : AuxInv r now) :
    AuxInv (r.removeCar item t) now := by
  obtain ⟨hw, hnd, hgf, hcars⟩ := hI
  rcases hG : r.cars.get? item with _ | id
  · rw [removeCar_components_none hG]
    have hlen : r.cars.length ≤ item := by
      rw [List.get?_eq_getElem?, List.getElem?_eq_none_iff] at hG
      exact hG
    rw [show ({ r with cars := r.cars.eraseIdx item } : Road) = r by
      rw [List.eraseIdx_of_length_le hlen]]
    exact ⟨hw, hnd, hgf, hcars⟩
  · obtain ⟨hRS, hCO, hCars, hSS⟩ := @removeCar_components _ t _ _ hG
    rw [List.get?_eq_getElem?] at hG
    obtain ⟨hlt, hval⟩ := List.getElem?_eq_some_iff.mp hG
    have hidmem : id ∈ r.cars := hval ▸ List.getElem_mem hlt
    obtain ⟨hcons, -⟩ := hcars id hidmem
    obtain ⟨hb1, hb2⟩ := carConsistent_bounds hw hcons
    have hb2' : (r.carOf id).lanePosX <
        ((r.roadSpace.getD (r.carOf id).laneNumber [] : List Cell)).length := by
      rw [hw.1 _ hb1]; exact hb2
    have hcell : ∀ i j, cellAt (r.removeCar item t) i j =
        if i = (r.carOf id).laneNumber ∧ j = (r.carOf id).lanePosX then Cell.empty
        else cellAt r i j := by
      intro i j
      rw [cellAt_def, hRS, ← cellAt_def, cellAt_setCell]
      by_cases hij : i = (r.carOf id).laneNumber ∧ j = (r.carOf id).lanePosX
      · rw [if_pos hij, if_pos ⟨hij.1.symm, hij.2.symm, hb1, hb2'⟩]
      · rw [if_neg hij, if_neg (fun hc => hij ⟨hc.1.symm, hc.2.1.symm⟩)]
    have hmem_erase : ∀ id', id' ∈ r.cars → id' ≠ id → id' ∈ r.cars.eraseIdx item := by
      intro id' hmem hne
      obtain ⟨i0, hi0, hv0⟩ := List.mem_iff_getElem.mp hmem
      refine List.mem_eraseIdx_iff_getElem.mpr ⟨i0, hi0, ?_, hv0⟩
      intro hcontra
      subst hcontra
      rw [hv0] at hval
      exact hne hval
    refine ⟨⟨?_, ?_⟩, ?_, ?_, ?_⟩
    · intro i hi
      have h1 : (r.removeCar item t).roadSpace.length = r.roadSpace.length := by
        rw [hRS]; simp
      rw [show ((r.removeCar item t).roadSpace.getD i [] : List Cell) =
          ((setCell r (r.carOf id).laneNumber (r.carOf id).lanePosX Cell.empty).roadSpace.getD i [] : List Cell) by rw [hRS]]
      rw [setCell_getD_length]
      exact hw.1 i (by rw [h1] at hi; exact hi)
    · rw [hSS]; exact hw.2
    · rw [hCars]
      exact (List.eraseIdx_sublist r.cars item).nodup hnd
    · -- ghost freedom
      intro i j id' hc
      rw [hcell i j] at hc
      rw [hCars]
      by_cases hij : i = (r.carOf id).laneNumber ∧ j = (r.carOf id).lanePosX
      · rw [if_pos hij] at hc
        exact absurd hc (by simp)
      · rw [if_neg hij] at hc
        have hid'mem : id' ∈ r.cars := hgf i j id' hc
        have hne : id' ≠ id := by
          intro h
          subst h
          exact hij ((hcons i j).mp hc)
        exact hmem_erase id' hid'mem hne
    · intro id' hid'
      rw [hCars] at hid'
      have hid'sub : id' ∈ r.cars := (List.eraseIdx_sublist r.cars item).mem hid'
      obtain ⟨hcons', haux'⟩ := hcars id' hid'sub
      have hne : id' ≠ id := by
        intro h
        subst h
        obtain ⟨i0, hi0, hi0ne, hv0⟩ := List.mem_eraseIdx_iff_getElem.mp hid'
        have hinj := List.nodup_iff_injective_get.mp hnd
        have heq : r.cars.get ⟨i0, hi0⟩ = r.cars.get ⟨item, hlt⟩ := by
          show r.cars[i0] = r.cars[item]
          rw [hv0, hval]
        exact hi0ne (congrArg Fin.val (hinj heq))
      constructor
      · intro i j
        rw [hcell i j, hCO]
        by_cases hij : i = (r.carOf id).laneNumber ∧ j = (r.carOf id).lanePosX
        · rw [if_pos hij]
          constructor
          · intro hc; exact absurd hc (by simp)
          · intro hc
            -- two distinct listed cars cannot record the same cell
            exfalso
            have h1 : cellAt r (r.carOf id).laneNumber (r.carOf id).lanePosX = Cell.car id :=
              carConsistent_cell hcons
            have h2 : cellAt r i j = Cell.car id' := (hcons' i j).mpr hc
            rw [hij.1, hij.2] at h2
            rw [h1] at h2
            injection h2 with h3
            exact hne h3.symm
        · rw [if_neg hij]
          exact hcons' i j
      · refine ⟨?_, ?_, ?_⟩ <;> rw [hCO]
        · exact haux'.1
        · show _ ≤ desiredOf _ (r.removeCar item t).spaceSize
          rw [hSS]
          exact haux'.2.1
        · exact haux'.2.2

lemma removeFold_auxInv {now : ℚ} :
    ∀ (l : List Nat) (r0 : Road), AuxInv r0 now →
      AuxInv (l.foldl (fun racc item => racc.removeCar item now) r0) now := by
  intro l
  induction l with
  | nil => exact fun r0 h => h
  | cons x xs ih =>
    intro r0 h
    rw [List.foldl_cons]
    exact ih _ (removeCar_auxInv h)

/-- A full tick (`driveCars`) preserves the invariant. -/
lemma driveCars_auxInv {r : Road} {now : ℚ} (hI : AuxInv r now) :
    AuxInv (r.driveCars now) now := by
  unfold Road.driveCars
  dsimp only
  exact removeFold_auxInv _ _ (drivePhase_auxInv hI).1

/-- A nonnegative `getRandomLane` result is an in-range lane whose entry
cell is open. -/
lemma getRandomLane_spec {r : Road} {pick : Nat} (h : ¬ r.getRandomLane pick < 0) :
    (r.getRandomLane pick).toNat < r.roadSpace.length ∧
    cellAt r (r.getRandomLane pick).toNat 0 = Cell.empty := by
  unfold Road.getRandomLane at h ⊢
  dsimp only at h ⊢
  set openLanes := (List.range r.roadSpace.length).filter
    (fun i => (r.roadSpace.getD i []).getD 0 Cell.empty = Cell.empty) with hOL
  by_cases hlen : openLanes.length = 0
  · rw [if_pos hlen] at h
    norm_num at h
  · rw [if_neg hlen] at h ⊢
    have hin : pick % openLanes.length < openLanes.length :=
      Nat.mod_lt _ (Nat.pos_of_ne_zero hlen)
    have hel : openLanes.getD (pick % openLanes.length) 0 ∈ openLanes := by
      rw [List.getD_eq_getElem _ _ hin]
      exact List.getElem_mem hin
    rw [List.mem_filter] at hel
    have h1 : openLanes.getD (pick % openLanes.length) 0 < r.roadSpace.length :=
      List.mem_range.mp hel.1
    have h2 : cellAt r (openLanes.getD (pick % openLanes.length) 0) 0 = Cell.empty := by
      have := hel.2
      simpa [cellAt] using of_decide_eq_true this
    constructor
    · rw [Int.toNat_natCast]
      exact h1
    · rw [Int.toNat_natCast]
      exact h2

/-- The pointwise per-car consistency (together with WF) of the cars of
the road after `addCar` of a fresh car. -/
lemma addCar_gridInv {r : Road} {now : ℚ} {id : Nat} {c : Car} {pick : Nat}
    (hw : WF r) (hG : ∀ id' ∈ r.cars, carConsistent r id')
    (hcell : ∀ i j, cellAt r i j ≠ Cell.car id) :
    ∀ id' ∈ (r.addCar id c pick now).cars, carConsistent (r.addCar id c pick now) id' := by
  unfold Road.addCar
  dsimp only
  by_cases hneg : r.getRandomLane pick < 0
  · rw [if_pos hneg]
    exact hG
  · rw [if_neg hneg]
    obtain ⟨hlane, hopen⟩ := getRandomLane_spec hneg
    set lane := (r.getRandomLane pick).toNat with hl
    have hlen0 : 0 < ((r.roadSpace.getD lane [] : List Cell)).length := by
      rw [hw.1 _ hlane]
      norm_num [ROAD_WIDTH]
    have hcellA : ∀ i j, cellAt (setCell r lane 0 (Cell.car id)) i j =
        if i = lane ∧ j = 0 then Cell.car id else cellAt r i j := by
      intro i j
      rw [cellAt_setCell]
      by_cases hij : i = lane ∧ j = 0
      · rw [if_pos hij, if_pos ⟨hij.1.symm, hij.2.symm, hlane, hlen0⟩]
      · rw [if_neg hij, if_neg (fun hc => hij ⟨hc.1.symm, hc.2.1.symm⟩)]
    intro id' hid'
    have hid'' : id' ∈ r.cars ++ [id] := hid'
    rw [List.mem_append] at hid''
    intro i j
    show cellAt (setCell r lane 0 (Cell.car id)) i j = _ ↔ _
    rw [hcellA i j]
    rcases hid'' with hmem | hnew
    · -- an existing car: `id' ≠ id` because `id`'s reference is nowhere on `r`
      have hne : id' ≠ id := by
        intro hcontra
        subst hcontra
        have := carConsistent_cell (hG id' hmem)
        exact hcell _ _ this
      rw [setCar_carOf_ne _ _ _ hne]
      show _ ↔ i = (r.carOf id').laneNumber ∧ j = (r.carOf id').lanePosX
      by_cases hij : i = lane ∧ j = 0
      · rw [if_pos hij]
        constructor
        · intro hc
          injection hc with h
          exact absurd h.symm hne
        · intro hc
          exfalso
          have h2 : cellAt r i j = Cell.car id' := ((hG id' hmem) i j).mpr hc
          rw [hij.1, hij.2, hopen] at h2
          exact Cell.noConfusion h2
      · rw [if_neg hij]
        exact (hG id' hmem) i j
    · -- the fresh car
      rw [List.mem_singleton] at hnew
      subst hnew
      rw [setCar_carOf_self]
      show _ ↔ i = lane ∧ j = 0
      by_cases hij : i = lane ∧ j = 0
      · rw [if_pos hij]
        simp [hij]
      · rw [if_neg hij]
        constructor
        · intro hc
          exact absurd hc (hcell i j)
        · intro hc
          exact absurd hc hij

/-- The claim-shaped grid invariant: every listed car's reference sits in
exactly one cell, at its recorded coordinates, and no two cars share a
cell. -/
def oneCellPerCar (r : Road) : Prop :=
  ∀ id ∈ r.cars,
    (cellAt r (r.carOf id).laneNumber (r.carOf id).lanePosX = Cell.car id ∧
     ∀ i j, cellAt r i j = Cell.car id →
       i = (r.carOf id).laneNumber ∧ j = (r.carOf id).lanePosX) ∧
    ∀ id' ∈ r.cars, id' ≠ id →
      ((r.carOf id).laneNumber, (r.carOf id).lanePosX) ≠
        ((r.carOf id').laneNumber, (r.carOf id').lanePosX)

lemma oneCellPerCar_of_consistent {r : Road}
    (h : ∀ id ∈ r.cars, carConsistent r id) : oneCellPerCar r := by
  intro id hid
  refine ⟨⟨carConsistent_cell (h id hid), fun i j hc => (h id hid i j).mp hc⟩, ?_⟩
  intro id' hid' hne hcoords
  have h1 : cellAt r (r.carOf id).laneNumber (r.carOf id).lanePosX = Cell.car id :=
    carConsistent_cell (h id hid)
  have h2 : cellAt r (r.carOf id').laneNumber (r.carOf id').lanePosX = Cell.car id' :=
    carConsistent_cell (h id' hid')
  rw [Prod.mk.injEq] at hcoords
  rw [← hcoords.1, ← hcoords.2, h1] at h2
  injection h2 with h3
  exact hne h3.symm

/-- Claim C2: at every tick boundary — after `driveCars` completes, and
after every `addCar` and `merge` — for every car in the road's car list
there is exactly one grid cell holding that car's reference, its
coordinates equal the car's recorded `(lane, position)`, and no two cars
share a cell.  The hypothesis `AuxInv` is the inductive invariant of
reachable tick boundaries: the grid property itself strengthened with
grid well-formedness, distinct listed ids, no unlisted references,
nonnegative speeds, recorded positions not ahead of the position derived
from cumulative distance, and update timestamps not in the future. -/
theorem C2_grid_invariant (r : Road) (now : ℚ) (h : AuxInv r now) :
    oneCellPerCar (r.driveCars now) ∧
    (∀ id ∈ r.cars, oneCellPerCar (r.merge id)) ∧
    (∀ idNew c pick, idNew ∉ r.cars → (∀ i j, cellAt r i j ≠ Cell.car idNew) →
      oneCellPerCar (r.addCar idNew c pick now)) := by
  refine ⟨?_, ?_, ?_⟩
  · have hA := driveCars_auxInv h
    exact oneCellPerCar_of_consistent (fun id hid => (hA.2.2.2 id hid).1)
  · intro id hid
    have hA := (merge_auxInv h hid).1
    exact oneCellPerCar_of_consistent (fun id' hid' => (hA.2.2.2 id' hid').1)
  · intro idNew c pick _ hcell
    exact oneCellPerCar_of_consistent
      (addCar_gridInv h.1 (fun id' hid' => (h.2.2.2 id' hid').1) hcell)

/-- A blank car record used as the default of example car maps. -/
def blankCar : Car :=
  { mergeTendency := 0, cooperation := 0, aggressiveness := 0,
    laneNumber := 0, lanePosX := 0, state := CState.Default, speed := 0,
    carsLetIn := 0, followingDistance := 0, indicator := false,
    lastMoved := none, distance := 0, startTime := none, startLane := 0 }

/-- A well-formed one-lane road with no cars. -/
def roadC2ex : Road :=
  { roadSpace := [List.replicate 50 Cell.empty],
    cars := [], blockedLanes := 0, spaceSize := 15,
    carOf := fun _ => blankCar, trails := [], completedCars := [] }

lemma roadC2ex_auxInv : AuxInv roadC2ex 0 := by
  refine ⟨⟨?_, by norm_num [roadC2ex]⟩, List.nodup_nil, ?_, ?_⟩
  · intro i hi
    have : i = 0 := by
      simpa [roadC2ex] using hi
    subst this
    simp [roadC2ex, ROAD_WIDTH]
  · intro i j id hc
    exfalso
    rw [cellAt_def] at hc
    rcases i with _ | i
    · rw [show (roadC2ex.roadSpace[0]? : Option (List Cell)) =
          some (List.replicate 50 Cell.empty) from rfl] at hc
      rw [Option.getD_some, List.getElem?_replicate] at hc
      split_ifs at hc <;> simp at hc
    · rw [show (roadC2ex.roadSpace[i + 1]? : Option (List Cell)) = none by
          rw [List.getElem?_eq_none_iff]; simp [roadC2ex]] at hc
      simp at hc
  · intro id hid
    exact absurd hid (List.not_mem_nil id)

/-- Witness for claim C2 at a concrete road. -/
theorem C2_grid_invariant_witness :
    AuxInv roadC2ex 0 ∧
    (oneCellPerCar (roadC2ex.driveCars 0) ∧
     (∀ id ∈ roadC2ex.cars, oneCellPerCar (roadC2ex.merge id)) ∧
     (∀ idNew c pick, idNew ∉ roadC2ex.cars →
        (∀ i j, cellAt roadC2ex i j ≠ Cell.car idNew) →
        oneCellPerCar (roadC2ex.addCar idNew c pick 0))) :=
  ⟨roadC2ex_auxInv, C2_grid_invariant roadC2ex 0 roadC2ex_auxInv⟩

/-! ### Helper lemmas for the rear-driver alerts -/

lemma findCarBehind_zero (lane : List Cell) : findCarBehind lane 0 = none := rfl

lemma alertRearDriver_carOf_notFound (c : Car) (r : Road) (newLane k : Nat)
    (hk : findCarBehind (r.roadSpace.getD newLane []) c.lanePosX ≠ some k) :
    (alertRearDriver c r newLane).carOf k = r.carOf k := by
  unfold alertRearDriver
  split_ifs
  · rfl
  · rfl
  · rcases hF : findCarBehind (r.roadSpace.getD newLane []) c.lanePosX with _ | j
    · rfl
    · have hjk : k ≠ j := fun h => hk (h ▸ hF)
      show (r.setCar j ((r.carOf j).alertMerge)).carOf k = r.carOf k
      exact setCar_carOf_ne _ _ _ hjk

lemma alertRearDriver_carOf_found (c : Car) (r : Road) (newLane j : Nat)
    (hlt : newLane < r.roadSpace.length)
    (hF : findCarBehind (r.roadSpace.getD newLane []) c.lanePosX = some j) :
    (alertRearDriver c r newLane).carOf j = (r.carOf j).alertMerge := by
  unfold alertRearDriver
  rw [if_neg (not_le.mpr hlt)]
  have hx : c.lanePosX ≠ 0 := by
    intro h0
    rw [h0, findCarBehind_zero] at hF
    exact Option.noConfusion hF
  rw [if_neg hx, hF]
  show (r.setCar j ((r.carOf j).alertMerge)).carOf j = (r.carOf j).alertMerge
  exact setCar_carOf_self _ _ _

/-! ### Claim C1 -/

/-- Lane 0 of the C1 scenario: car 1 at cell 1, car 2 at cell 2. -/
def laneC1 : List Cell := ((List.replicate 50 Cell.empty).set 1 (Cell.car 1)).set 2 (Cell.car 2)

def carC1a : Car := { blankCar with laneNumber := 0, lanePosX := 1 }

def carC1b : Car := { blankCar with laneNumber := 0, lanePosX := 2 }

/-- A one-lane road where car 1 sits directly behind car 2. -/
def roadC1 : Road :=
  { roadSpace := [laneC1], cars := [1, 2], blockedLanes := 0, spaceSize := 15,
    carOf := fun j => if j = 2 then carC1b else carC1a, trails := [], completedCars := [] }

/-- Claim C1 counterexample: committing car 1 onto the occupied cell
`(0,2)` fails with `-1`, yet the failed call is not a no-op — car 1's
current cell `(0,1)`, which held its reference before the call, is empty
afterwards (the source vacates the current cell before the occupancy
check). -/
theorem C1_counterexample :
    (roadC1.setCarPos 1 0 2).2 = -1 ∧
    cellAt roadC1 0 1 = Cell.car 1 ∧
    cellAt (roadC1.setCarPos 1 0 2).1 0 1 = Cell.empty := by
  refine ⟨by decide, by decide, by decide⟩

/-- Claim C1 (amended): committing a position change onto an occupied
in-bounds cell distinct from the car's own cell signals `-1` to the
caller, but instead of leaving every cell unchanged it vacates the car's
current cell; every other cell, the car list, and every car's recorded
coordinates are unchanged. -/
theorem C1_occupied_commit_vacates (r : Road) (id lane laneX : Nat) (hw : WF r)
    (h1 : lane < r.roadSpace.length) (h2 : laneX < ROAD_WIDTH)
    (h3 : (r.carOf id).laneNumber < r.roadSpace.length)
    (h4 : (r.carOf id).lanePosX < ROAD_WIDTH)
    (hne : ¬(lane = (r.carOf id).laneNumber ∧ laneX = (r.carOf id).lanePosX))
    (hdest : cellAt r lane laneX ≠ Cell.empty) :
    (r.setCarPos id lane laneX).2 = -1 ∧
    cellAt (r.setCarPos id lane laneX).1 (r.carOf id).laneNumber (r.carOf id).lanePosX
      = Cell.empty ∧
    (∀ i j, ¬(i = (r.carOf id).laneNumber ∧ j = (r.carOf id).lanePosX) →
      cellAt (r.setCarPos id lane laneX).1 i j = cellAt r i j) ∧
    (r.setCarPos id lane laneX).1.cars = r.cars ∧
    (∀ j, ((r.setCarPos id lane laneX).1.carOf j).laneNumber = (r.carOf j).laneNumber ∧
      ((r.setCarPos id lane laneX).1.carOf j).lanePosX = (r.carOf j).lanePosX) := by
  obtain ⟨ha, hb, hc, hd⟩ := setCarPos_occupied_spec r id lane laneX hw h1 h2 h3 h4 hne hdest
  refine ⟨ha, ?_, ?_, hc, fun j => ⟨(hd j).1, (hd j).2.1⟩⟩
  · rw [hb]
    rw [if_pos ⟨rfl, rfl⟩]
  · intro i j hij
    rw [hb, if_neg hij]

lemma roadC1_wf : WF roadC1 := by
  constructor
  · intro i hi
    have h0 : i = 0 := by
      have : i < 1 := by simpa [roadC1] using hi
      omega
    subst h0
    decide
  · norm_num [roadC1]

/-- Witness for the amended claim C1 at the concrete collision scenario. -/
theorem C1_occupied_commit_vacates_witness :
    WF roadC1 ∧
    ((roadC1.setCarPos 1 0 2).2 = -1 ∧
     cellAt (roadC1.setCarPos 1 0 2).1 (roadC1.carOf 1).laneNumber (roadC1.carOf 1).lanePosX
       = Cell.empty ∧
     (∀ i j, ¬(i = (roadC1.carOf 1).laneNumber ∧ j = (roadC1.carOf 1).lanePosX) →
       cellAt (roadC1.setCarPos 1 0 2).1 i j = cellAt roadC1 i j) ∧
     (roadC1.setCarPos 1 0 2).1.cars = roadC1.cars ∧
     (∀ j, ((roadC1.setCarPos 1 0 2).1.carOf j).laneNumber = (roadC1.carOf j).laneNumber ∧
       ((roadC1.setCarPos 1 0 2).1.carOf j).lanePosX = (roadC1.carOf j).lanePosX)) :=
  ⟨roadC1_wf,
   C1_occupied_commit_vacates roadC1 1 0 2 roadC1_wf (by decide) (by decide) (by decide)
     (by decide) (by decide) (by decide)⟩

/-! ### Claim C4 -/

/-- Claim C4: `getValueFromNormalized` compares the normalized input with
the middle anchor VALUE instead of `0.5`, so for every anchor triple whose
middle anchor exceeds `1` the whole interval `[0,1]` falls into the lower
branch and `transform(1) = 2*mid - low`, not `high`.  Concretely, at
`input = 1` the following-distance anchors `(0.2, 3, 5)` yield `5.8 ≠ 5`,
the merge-distance anchors `(50, 25, 2)` yield `0 ≠ 2`, and the merge-gap
anchors `(0.8, 1.5, 3)` yield `2.2 ≠ 3`. -/
theorem C4_transform_endpoint_divergence :
    getValueFromNormalized 1 FOLLOWING_DISTANCE_LOW FOLLOWING_DISTANCE_MID
      FOLLOWING_DISTANCE_HIGH = 29/5 ∧
    FOLLOWING_DISTANCE_HIGH = 5 ∧ (29/5 : ℚ) ≠ 5 ∧
    getValueFromNormalized 1 MERGE_DISTANCE_LOW MERGE_DISTANCE_MID
      MERGE_DISTANCE_HIGH = 0 ∧
    MERGE_DISTANCE_HIGH = 2 ∧ (0 : ℚ) ≠ 2 ∧
    getValueFromNormalized 1 MERGE_GAP_LOW MERGE_GAP_MID MERGE_GAP_HIGH = 11/5 ∧
    MERGE_GAP_HIGH = 3 ∧ (11/5 : ℚ) ≠ 3 := by
  norm_num [getValueFromNormalized, FOLLOWING_DISTANCE_LOW, FOLLOWING_DISTANCE_MID,
    FOLLOWING_DISTANCE_HIGH, MERGE_DISTANCE_LOW, MERGE_DISTANCE_MID, MERGE_DISTANCE_HIGH,
    MERGE_GAP_LOW, MERGE_GAP_MID, MERGE_GAP_HIGH]

/-! ### Claim C7 -/

/-- A car at the start of the rubberneck zone travelling at 64. -/
def carC7start : Car := { blankCar with laneNumber := 0, lanePosX := 40, speed := 64 }

/-- A car at the midpoint of the rubberneck zone travelling at 64. -/
def carC7mid : Car := { blankCar with laneNumber := 0, lanePosX := 44, speed := 64 }

/-- Claim C7 counterexample: at the zone's start (cell 40) the rubberneck
adjustment for a car at speed 64 is `-48/5`; a linear fade to zero at the
zone's end would put the adjustment at the zone midpoint (cell 44) at half
the peak, `-24/5`, but the code produces `-12/5` — a quarter of the peak,
because the fade is quadratic. -/
theorem C7_counterexample :
    rubberneckDelta carC7start = -48/5 ∧
    rubberneckDelta carC7mid = -12/5 ∧
    (-48/5 : ℚ) * (1 - ((44 : ℚ) - 40) / 8) = -24/5 ∧
    (-12/5 : ℚ) ≠ -24/5 := by
  norm_num [rubberneckDelta, carC7start, carC7mid, blankCar, BLOCK_START,
    RUBBERNECK_ZONE_LENGTH, RUBBERNECK_SPEED_FACTOR]

/-- Claim C7 (amended): inside the fixed 8-cell zone starting at the
blockage start column, `effectSpeed` adds a rubbernecking adjustment of
`-(3/20) * speed * (1 - depth)^2` where `depth` is the fraction of the
zone already traversed — the slowdown peaks at the zone's start and fades
QUADRATICALLY (not linearly) to zero at the zone's end; cars outside the
zone or in blocked lanes receive no rubbernecking adjustment. -/
theorem C7_rubberneck_quadratic_fade (c : Car) (r : Road) :
    rubberneckDelta c =
      -(3/20) * c.speed *
        ((1 : ℚ) - ((c.lanePosX : ℚ) - (BLOCK_START : ℚ)) / (RUBBERNECK_ZONE_LENGTH : ℚ))^2 ∧
    (isInRubberneckZone c r = true ↔
      c.laneNumber < r.roadSpace.length - r.blockedLanes ∧
      BLOCK_START ≤ c.lanePosX ∧ c.lanePosX < BLOCK_START + RUBBERNECK_ZONE_LENGTH) ∧
    (isInRubberneckZone c r = false →
      effectSpeed c r =
        if c.getActualDistance r < 0 then c
        else c.adjustSpeedBy (speedDifferenceBase c r)) := by
  refine ⟨?_, ?_, ?_⟩
  · unfold rubberneckDelta RUBBERNECK_SPEED_FACTOR
    dsimp only
    ring
  · unfold isInRubberneckZone
    split_ifs with h
    · simp only [Bool.false_eq_true, false_iff]
      intro hcon
      omega
    · rw [decide_eq_true_iff]
      push_neg at h
      constructor
      · exact fun hz => ⟨h, hz⟩
      · exact fun hz => hz.2
  · intro h
    unfold effectSpeed
    by_cases hd : c.getActualDistance r < 0
    · rw [if_pos hd, if_pos hd]
    · rw [if_neg hd, if_neg hd]
      dsimp only
      rw [h]
      simp

/-! ### Claim C8 -/

/-- Claim C8: the merge decision is independent of the quota check.  For
any two road states that agree everywhere except in the cars-let-in
counters and cooperation traits (of the merging car and of every car on
the road — exactly the inputs `checkUnderCarLeftQuota` consults),
`canMerge` returns the same result: the quota check is computed and
discarded (its gate is commented out in the source). -/
theorem C8_quota_check_advisory (c : Car) (r : Road) (n n' : Nat) (q q' : ℚ)
    (f f' : Nat → Nat) (g g' : Nat → ℚ) :
    canMerge { c with carsLetIn := n, cooperation := q }
        { r with carOf := fun j => { r.carOf j with carsLetIn := f j, cooperation := g j } } =
    canMerge { c with carsLetIn := n', cooperation := q' }
        { r with carOf := fun j => { r.carOf j with carsLetIn := f' j, cooperation := g' j } } :=
  rfl

/-! ### Claim C10 -/

/-- Claim C10: whenever `setCarPos` is called with an in-bounds destination
lane different from the car's current lane, the moving car's own
cars-let-in counter is incremented by 1, and the nearest car behind the
merge point in the destination lane (when the scan finds one) also has its
counter incremented by 1 — with no assumption that the move succeeds, so
both increments persist even when the subsequent occupancy check rejects
the move. -/
theorem C10_lane_change_alerts (r : Road) (id lane laneX : Nat)
    (h1 : lane < r.roadSpace.length) (h2 : laneX < ROAD_WIDTH)
    (h3 : (r.carOf id).laneNumber < r.roadSpace.length)
    (h4 : (r.carOf id).lanePosX < ROAD_WIDTH)
    (hlane : lane ≠ (r.carOf id).laneNumber)
    (hnotself : findCarBehind (r.roadSpace.getD lane []) (r.carOf id).lanePosX ≠ some id) :
    ((r.setCarPos id lane laneX).1.carOf id).carsLetIn = (r.carOf id).carsLetIn + 1 ∧
    ∀ j, findCarBehind (r.roadSpace.getD lane []) (r.carOf id).lanePosX = some j →
      ((r.setCarPos id lane laneX).1.carOf j).carsLetIn = (r.carOf j).carsLetIn + 1 := by
  have hb1 : ¬(lane ≥ r.roadSpace.length ∨ laneX ≥ ROAD_WIDTH) := by omega
  have hb2 : ¬((r.carOf id).laneNumber ≥ r.roadSpace.length ∨
      (r.carOf id).lanePosX ≥ ROAD_WIDTH) := by omega
  have hcond : (r.carOf id).laneNumber ≠ lane := fun h => hlane h.symm
  have hphase : r.alertPhase id lane =
      (alertRearDriver (r.carOf id) r lane).setCar id
        (((alertRearDriver (r.carOf id) r lane).carOf id).alertMerge) := by
    unfold Road.alertPhase
    rw [if_pos hcond]
  have hmover : ((r.alertPhase id lane).carOf id).carsLetIn = (r.carOf id).carsLetIn + 1 := by
    rw [hphase, setCar_carOf_self, alertMerge_carsLetIn,
      alertRearDriver_carOf_notFound _ _ _ _ hnotself]
  have hrear : ∀ j, findCarBehind (r.roadSpace.getD lane []) (r.carOf id).lanePosX = some j →
      ((r.alertPhase id lane).carOf j).carsLetIn = (r.carOf j).carsLetIn + 1 := by
    intro j hF
    have hj : j ≠ id := by
      intro h
      exact hnotself (h ▸ hF)
    rw [hphase, setCar_carOf_ne _ _ _ hj, alertRearDriver_carOf_found _ _ _ _ h1 hF,
      alertMerge_carsLetIn]
  rw [setCarPos_inbounds r id lane laneX hb1 hb2]
  dsimp only
  split_ifs with hocc
  · exact ⟨hmover, hrear⟩
  · constructor
    · dsimp only
      rw [setCar_carOf_self]
      dsimp only
      rw [setCell_carOf, setCell_carOf]
      exact hmover
    · intro j hF
      have hj : j ≠ id := by
        intro h
        exact hnotself (h ▸ hF)
      dsimp only
      rw [setCar_carOf_ne _ _ _ hj, setCell_carOf, setCell_carOf]
      exact hrear j hF

/-- Lane 0 of the C10 scenario: the moving car 1 at cell 5. -/
def laneC10a : List Cell := (List.replicate 50 Cell.empty).set 5 (Cell.car 1)

/-- Lane 1 of the C10 scenario: the rear car 2 at cell 3, and cell 5
occupied by a blockage so the commit is rejected. -/
def laneC10b : List Cell :=
  ((List.replicate 50 Cell.empty).set 3 (Cell.car 2)).set 5 Cell.block

def carC10a : Car := { blankCar with laneNumber := 0, lanePosX := 5 }

def carC10b : Car := { blankCar with laneNumber := 1, lanePosX := 3 }

def roadC10 : Road :=
  { roadSpace := [laneC10a, laneC10b], cars := [1, 2], blockedLanes := 0, spaceSize := 15,
    carOf := fun j => if j = 2 then carC10b else carC10a, trails := [], completedCars := [] }

/-- Witness for claim C10: car 1 changes lanes onto an occupied cell; the
move is rejected, yet both let-in counters are incremented. -/
theorem C10_lane_change_alerts_witness :
    (1 < roadC10.roadSpace.length ∧
     findCarBehind (roadC10.roadSpace.getD 1 []) (roadC10.carOf 1).lanePosX = some 2) ∧
    (((roadC10.setCarPos 1 1 5).1.carOf 1).carsLetIn = (roadC10.carOf 1).carsLetIn + 1 ∧
     ∀ j, findCarBehind (roadC10.roadSpace.getD 1 []) (roadC10.carOf 1).lanePosX = some j →
       ((roadC10.setCarPos 1 1 5).1.carOf j).carsLetIn = (roadC10.carOf j).carsLetIn + 1) :=
  ⟨⟨by decide, by decide⟩,
   C10_lane_change_alerts roadC10 1 1 5 (by decide) (by decide) (by decide) (by decide)
     (by decide) (by decide)⟩

/-! ### Claim C9 -/

/-- Claim C9: `getFairness` always lies in `(0, 1]`; it is exactly `1`
when fewer than 2 completion records exist, and otherwise — writing
`times` for the recorded travel durations, `mean` for their average —
it is `1` when the mean is zero and `1 / (1 + stdDev / mean)` (with
`stdDev` the population standard deviation) when it is not.  The
nonnegativity hypothesis is what the program guarantees of its records
(a completion's travel time is `exit time - start time ≥ 0`). -/
theorem C9_fairness_bounds (r : Road)
    (h : ∀ cc ∈ r.completedCars, (0 : ℚ) ≤ cc.travelTime) :
    (0 < r.getFairness ∧ r.getFairness ≤ 1) ∧
    (r.completedCars.length < 2 → r.getFairness = 1) ∧
    (∀ times mean : _, times = r.completedCars.map (fun cc => (cc.travelTime : ℝ)) →
      mean = times.sum / (times.length : ℝ) →
      2 ≤ r.completedCars.length →
      (mean = 0 → r.getFairness = 1) ∧
      (mean ≠ 0 → r.getFairness =
        1 / (1 + Real.sqrt ((times.map (fun t => (t - mean) ^ 2)).sum / (times.length : ℝ))
              / mean))) := by
  have hsum : 0 ≤ (r.completedCars.map (fun cc => (cc.travelTime : ℝ))).sum := by
    apply List.sum_nonneg
    intro x hx
    obtain ⟨cc, hcc, rfl⟩ := List.mem_map.mp hx
    exact_mod_cast h cc hcc
  refine ⟨?_, ?_, ?_⟩
  · unfold Road.getFairness
    dsimp only
    split_ifs with h1 h2
    · norm_num
    · norm_num
    · set times := r.completedCars.map (fun cc => (cc.travelTime : ℝ)) with ht
      have hmean0 : 0 ≤ times.sum / (times.length : ℝ) := by
        apply div_nonneg hsum
        positivity
      have hmean : 0 < times.sum / (times.length : ℝ) :=
        lt_of_le_of_ne hmean0 (Ne.symm h2)
      have hvar : 0 ≤ (times.map
          (fun t => (t - times.sum / (times.length : ℝ)) ^ 2)).sum / (times.length : ℝ) := by
        apply div_nonneg
        · apply List.sum_nonneg
          intro x hx
          obtain ⟨t, -, rfl⟩ := List.mem_map.mp hx
          positivity
        · positivity
      have hcv : 0 ≤ Real.sqrt ((times.map
          (fun t => (t - times.sum / (times.length : ℝ)) ^ 2)).sum / (times.length : ℝ))
          / (times.sum / (times.length : ℝ)) :=
        div_nonneg (Real.sqrt_nonneg _) hmean.le
      constructor
      · positivity
      · rw [div_le_one (by linarith)]
        linarith
  · intro h1
    unfold Road.getFairness
    rw [if_pos h1]
  · intro times mean h1 h2 hlen
    subst h1
    subst h2
    constructor
    · intro hm
      unfold Road.getFairness
      rw [if_neg (not_lt.mpr hlen)]
      dsimp only
      rw [if_pos hm]
    · intro hm
      unfold Road.getFairness
      rw [if_neg (not_lt.mpr hlen)]
      dsimp only
      rw [if_neg hm]

/-- A road holding exactly two completion records with travel times 1
and 3. -/
def roadC9 : Road :=
  { roadSpace := [List.replicate 50 Cell.empty], cars := [], blockedLanes := 0,
    spaceSize := 15, carOf := fun _ => blankCar, trails := [],
    completedCars := [CompletedCar.mk 0 1 0, CompletedCar.mk 0 3 0] }

/-- Witness for claim C9 on a road with two completion records. -/
theorem C9_fairness_bounds_witness :
    (∀ cc ∈ roadC9.completedCars, (0 : ℚ) ≤ cc.travelTime) ∧
    ((0 < roadC9.getFairness ∧ roadC9.getFairness ≤ 1) ∧
     (roadC9.completedCars.length < 2 → roadC9.getFairness = 1) ∧
     (∀ times mean : _, times = roadC9.completedCars.map (fun cc => (cc.travelTime : ℝ)) →
       mean = times.sum / (times.length : ℝ) →
       2 ≤ roadC9.completedCars.length →
       (mean = 0 → roadC9.getFairness = 1) ∧
       (mean ≠ 0 → roadC9.getFairness =
         1 / (1 + Real.sqrt ((times.map (fun t => (t - mean) ^ 2)).sum / (times.length : ℝ))
               / mean)))) := by
  have h : ∀ cc ∈ roadC9.completedCars, (0 : ℚ) ≤ cc.travelTime := by
    intro cc hcc
    simp only [roadC9, List.mem_cons, List.not_mem_nil, or_false] at hcc
    rcases hcc with rfl | rfl <;> norm_num
  exact ⟨h, C9_fairness_bounds roadC9 h⟩

/-! ### Claim C5 -/

/-- The desired-merge-space value after `canMerge`'s slow-left-lane clamp
(the two shadowing `desiredSpaces` bindings of the source). -/
def clampedDesiredSpaces (c : Car) (r : Road) : ℚ :=
  let urgencyFactor := getMergeUrgency c r
  let desiredSpaces := c.getDesiredMergeSpace (some r) urgencyFactor
  let leftSpeed := getLeft10AverageSpeed c r
  if 0 ≤ leftSpeed ∧ leftSpeed ≤ 1 ∧ 2 < desiredSpaces then 2 else desiredSpaces

lemma canMerge_eq (c : Car) (r : Road) :
    canMerge c r =
      match getLeftOpenSpaces r c.laneNumber c.lanePosX with
      | none => false
      | some sp => decide (clampedDesiredSpaces c r ≤
          ((sp.left_ahead : ℚ) + (sp.left_behind : ℚ) + (sp.left_beside : ℚ))) := rfl

lemma one_le_minMergeSpace {a : ℚ} (ha : 0 ≤ a) :
    1 ≤ getValueFromNormalized a MERGE_SPACE_LOW MERGE_SPACE_MID MERGE_SPACE_HIGH := by
  unfold getValueFromNormalized MERGE_SPACE_LOW MERGE_SPACE_MID MERGE_SPACE_HIGH
  dsimp only
  split_ifs with h1 h2
  · norm_num
  · have : 0 ≤ a / (1/2) * (3 - 1) := by positivity
    linarith
  · push_neg at h1 h2
    have : 0 ≤ (a - 1/2) / (1/2) * (5 - 3) := by
      apply mul_nonneg
      · apply div_nonneg <;> linarith
      · norm_num
    linarith

lemma clampedDesiredSpaces_pos (c : Car) (r : Road) (ha : 0 ≤ c.aggressiveness) :
    0 < clampedDesiredSpaces c r := by
  have h1 : (1:ℚ) ≤ c.getDesiredMergeSpace (some r) (getMergeUrgency c r) := by
    unfold Car.getDesiredMergeSpace
    dsimp only
    exact le_trans (one_le_minMergeSpace ha) (le_max_left _ _)
  unfold clampedDesiredSpaces
  dsimp only
  split_ifs with h
  · norm_num
  · linarith

/-- A true `canMerge` forces the beside cell in the left lane open (and
the whole left-survey well-formed), so `merge` commits a one-lane move
toward lane 0. -/
lemma canMerge_merge_left {r : Road} {id : Nat} (hw : WF r)
    (hag : 0 ≤ (r.carOf id).aggressiveness)
    (hcm : canMerge (r.carOf id) r = true) :
    ((r.merge id).carOf id).laneNumber + 1 = (r.carOf id).laneNumber := by
  have hpos := clampedDesiredSpaces_pos (r.carOf id) r hag
  have hrw : ROAD_WIDTH = 50 := rfl
  rw [canMerge_eq] at hcm
  rcases hS : getLeftOpenSpaces r (r.carOf id).laneNumber (r.carOf id).lanePosX
    with _ | sp
  · rw [hS] at hcm
    exact absurd hcm (by simp)
  rw [hS] at hcm
  have hsum : clampedDesiredSpaces (r.carOf id) r ≤
      (sp.left_ahead : ℚ) + (sp.left_behind : ℚ) + (sp.left_beside : ℚ) :=
    of_decide_eq_true hcm
  unfold getLeftOpenSpaces at hS
  rcases hL : getLaneData r (r.carOf id).laneNumber with _ | laneData
  · rw [hL] at hS
    exact Option.noConfusion hS
  rw [hL] at hS
  dsimp only at hS
  by_cases h0 : (r.carOf id).laneNumber = 0
  · rw [if_pos h0] at hS
    exfalso
    injection hS with hS
    rw [← hS] at hsum
    push_cast at hsum
    linarith
  rw [if_neg h0] at hS
  rcases hLL : getLaneData r ((r.carOf id).laneNumber - 1) with _ | leftLaneData
  · rw [hLL] at hS
    exact Option.noConfusion hS
  rw [hLL] at hS
  dsimp only at hS
  by_cases hlen : leftLaneData.length ≠ laneData.length
  · rw [if_pos hlen] at hS
    exact Option.noConfusion hS
  rw [if_neg hlen] at hS
  push_neg at hlen
  by_cases hx : (r.carOf id).lanePosX ≥ laneData.length - 1
  · rw [if_pos hx] at hS
    exfalso
    injection hS with hS
    rw [← hS] at hsum
    push_cast at hsum
    linarith
  rw [if_neg hx] at hS
  push_neg at hx
  by_cases hbes : leftLaneData.getD (r.carOf id).lanePosX Cell.empty ≠ Cell.empty
  · rw [if_pos hbes] at hS
    exfalso
    injection hS with hS
    rw [← hS] at hsum
    push_cast at hsum
    linarith
  rw [if_neg hbes] at hS
  push_neg at hbes
  have hlane_lt : (r.carOf id).laneNumber < r.roadSpace.length := by
    rw [getLaneData_eq] at hL
    exact (List.getElem?_eq_some.mp hL).1
  have hlaneLen : laneData.length = ROAD_WIDTH := by
    have hgd := hw.1 _ hlane_lt
    rw [getLaneData_eq] at hL
    rw [List.getD_eq_getElem?_getD, hL] at hgd
    simpa using hgd
  unfold Road.merge
  dsimp only
  rw [if_neg h0]
  have hcell : cellAt r ((r.carOf id).laneNumber - 1) (r.carOf id).lanePosX = Cell.empty := by
    rw [cellAt_of_laneData hLL]
    exact hbes
  rw [if_pos hcell]
  obtain ⟨-, -, -, -, -, -, hlaneNew, -, -, -⟩ :=
    setCarPos_success_spec r id ((r.carOf id).laneNumber - 1) (r.carOf id).lanePosX hw
      (by omega) (by omega) hlane_lt (by omega) (Or.inl hcell)
  rw [hlaneNew]
  omega

/-- The per-car update phase preceding `driveRest`'s merge attempt: the
post-`effectSpeed`/`effectMergeState`/time-stamp car, and the road in
which it is recorded. -/
def drivePhase1 (r : Road) (now : ℚ) (id : Nat) : Car × Road :=
  let c2 := effectSpeed (r.carOf id) r
  let r2 := r.setCar id c2
  let c3 := effectMergeState c2 r2
  let r3 := r2.setCar id c3
  let c4 := Road.stampCar c3 now
  (c4, r3.setCar id c4)

lemma driveRest_eq (r : Road) (now : ℚ) (id : Nat) :
    r.driveRest now id =
      if (drivePhase1 r now id).1.state = CState.Merge ∧
          canMerge (drivePhase1 r now id).1 (drivePhase1 r now id).2 then
        (drivePhase1 r now id).2.merge id
      else (drivePhase1 r now id).2 := rfl

lemma drivePhase1_carOf_self (r : Road) (now : ℚ) (id : Nat) :
    (drivePhase1 r now id).2.carOf id = (drivePhase1 r now id).1 := by
  unfold drivePhase1
  dsimp only
  rw [setCar_carOf_self]

lemma adjustSpeedBy_aggressiveness (c : Car) (a : ℚ) :
    (c.adjustSpeedBy a).aggressiveness = c.aggressiveness := by
  unfold Car.adjustSpeedBy
  dsimp only
  split_ifs <;> rfl

lemma effectSpeed_aggressiveness (c : Car) (r : Road) :
    (effectSpeed c r).aggressiveness = c.aggressiveness := by
  unfold effectSpeed
  dsimp only
  split_ifs
  · rfl
  · exact adjustSpeedBy_aggressiveness _ _
  · exact adjustSpeedBy_aggressiveness _ _

lemma effectMergeState_aggressiveness (c : Car) (r : Road) :
    (effectMergeState c r).aggressiveness = c.aggressiveness := by
  unfold effectMergeState
  dsimp only
  split_ifs <;> rfl

@[simp] lemma stampCar_aggressiveness (c : Car) (now : ℚ) :
    (Road.stampCar c now).aggressiveness = c.aggressiveness := rfl

lemma drivePhase1_laneNumber (r : Road) (now : ℚ) (id : Nat) :
    (drivePhase1 r now id).1.laneNumber = (r.carOf id).laneNumber := by
  unfold drivePhase1
  dsimp only
  rw [stampCar_laneNumber, (effectMergeState_stable _ _).1, (effectSpeed_stable _ _).1]

lemma drivePhase1_aggressiveness (r : Road) (now : ℚ) (id : Nat) :
    (drivePhase1 r now id).1.aggressiveness = (r.carOf id).aggressiveness := by
  unfold drivePhase1
  dsimp only
  rw [stampCar_aggressiveness, effectMergeState_aggressiveness, effectSpeed_aggressiveness]

/-- Claim C5: a car that, after its per-tick speed and state updates, is
in `Merge` state with `canMerge` true performs the merge within the same
drive step: its lane index decreases by exactly 1. -/
theorem C5_merge_moves_one_lane (r : Road) (now : ℚ) (id : Nat) (hw : WF r)
    (hag : 0 ≤ (r.carOf id).aggressiveness)
    (hM : (drivePhase1 r now id).1.state = CState.Merge)
    (hcm : canMerge (drivePhase1 r now id).1 (drivePhase1 r now id).2 = true) :
    ((r.driveRest now id).carOf id).laneNumber + 1 = (r.carOf id).laneNumber := by
  rw [driveRest_eq, if_pos ⟨hM, hcm⟩]
  have hw4 : WF (drivePhase1 r now id).2 := hw
  have hag4 : 0 ≤ ((drivePhase1 r now id).2.carOf id).aggressiveness := by
    rw [drivePhase1_carOf_self, drivePhase1_aggressiveness]
    exact hag
  have hcm4 : canMerge ((drivePhase1 r now id).2.carOf id) (drivePhase1 r now id).2 = true := by
    rw [drivePhase1_carOf_self]
    exact hcm
  have h1 := canMerge_merge_left hw4 hag4 hcm4
  rw [drivePhase1_carOf_self, drivePhase1_laneNumber] at h1
  exact h1

/-- Left lane of the C5 scenario: fully open. -/
def laneC5a : List Cell := List.replicate 50 Cell.empty

/-- Own lane of the C5 scenario: the car at cell 20, a blockage at 45. -/
def laneC5b : List Cell := ((List.replicate 50 Cell.empty).set 20 (Cell.car 1)).set 45 Cell.block

def carC5 : Car := { blankCar with laneNumber := 1, lanePosX := 20, followingDistance := 1 }

def roadC5 : Road :=
  { roadSpace := [laneC5a, laneC5b], cars := [1], blockedLanes := 1, spaceSize := 15,
    carOf := fun _ => carC5, trails := [], completedCars := [] }

/-- The C5 car after `effectSpeed` (clamped to the speed cap). -/
def carC5b : Car := { carC5 with speed := 66 }

/-- The C5 car after `effectMergeState` (the blockage is inside its
desired merging distance). -/
def carC5c : Car := { carC5b with state := CState.Merge }

/-- The C5 road as `driveRest` sees it at the merge decision. -/
def roadC5after : Road :=
  ((roadC5.setCar 1 carC5b).setCar 1 carC5c).setCar 1 (Road.stampCar carC5c 0)

lemma roadC5_wf : WF roadC5 := by
  constructor
  · intro i hi
    have h2 : i < 2 := by simpa [roadC5] using hi
    interval_cases i
    · decide
    · decide
  · norm_num [roadC5]

lemma quota_C5 : carC5.getCarQuota roadC5 = 0 := by
  unfold Car.getCarQuota jsRound
  norm_num [carC5, blankCar, roadC5]

lemma shouldLetCarIn_C5 : shouldLetCarIn carC5 roadC5 = false := by
  unfold shouldLetCarIn
  rw [if_pos (by rw [quota_C5]; norm_num [carC5, blankCar])]

lemma desiredDistance_C5 : carC5.getDesiredDistance roadC5 = 0 := by
  unfold Car.getDesiredDistance
  rw [shouldLetCarIn_C5]
  norm_num [carC5, blankCar]

lemma speedDifferenceBase_C5 : speedDifferenceBase carC5 roadC5 = 360 := by
  unfold speedDifferenceBase
  dsimp only
  rw [if_neg (by decide : ¬ carC5.state = CState.Merge)]
  rw [desiredDistance_C5, show carC5.getActualDistance roadC5 = 24 from by decide]
  norm_num [roadC5]

lemma effectSpeed_C5 : effectSpeed carC5 roadC5 = carC5b := by
  unfold effectSpeed
  rw [if_neg (by decide : ¬ carC5.getActualDistance roadC5 < 0)]
  dsimp only
  rw [show isInRubberneckZone carC5 roadC5 = false from by decide]
  simp only [Bool.false_eq_true, if_false]
  rw [speedDifferenceBase_C5]
  unfold Car.adjustSpeedBy
  dsimp only
  rw [if_pos (by norm_num [carC5, blankCar, MAX_SPEED] : MAX_SPEED ≤ carC5.speed + 360)]
  rfl

lemma desiredMerging_C5 : carC5b.getDesiredMergingDistance = 50 := by
  unfold Car.getDesiredMergingDistance getValueFromNormalized MERGE_DISTANCE_LOW
    MERGE_DISTANCE_MID MERGE_DISTANCE_HIGH
  norm_num [carC5b, carC5, blankCar]

lemma effectMergeState_C5 : effectMergeState carC5b (roadC5.setCar 1 carC5b) = carC5c := by
  unfold effectMergeState
  dsimp only
  rw [desiredMerging_C5,
    show getDistance (roadC5.setCar 1 carC5b) carC5b.laneNumber carC5b.lanePosX
      SpaceType.Blockage = 24 from by decide]
  rw [if_pos (by norm_num)]
  rfl

lemma drivePhase1_C5 :
    (drivePhase1 roadC5 0 1).1 = Road.stampCar carC5c 0 ∧
    (drivePhase1 roadC5 0 1).2 = roadC5after := by
  unfold drivePhase1 roadC5after
  dsimp only
  rw [show roadC5.carOf 1 = carC5 from rfl, effectSpeed_C5, effectMergeState_C5]
  exact ⟨rfl, rfl⟩

lemma urgency_C5 : getMergeUrgency (Road.stampCar carC5c 0) roadC5after = 1 := by
  unfold getMergeUrgency
  dsimp only
  rw [show getDistance roadC5after (Road.stampCar carC5c 0).laneNumber
      (Road.stampCar carC5c 0).lanePosX SpaceType.Blockage = 24 from by decide]
  norm_num

lemma leftSpeed_C5 : getLeft10AverageSpeed (Road.stampCar carC5c 0) roadC5after = -1 := by
  decide

lemma mergeGap_C5 : (Road.stampCar carC5c 0).getDesiredMergeGap = 4/5 := by
  unfold Car.getDesiredMergeGap getValueFromNormalized MERGE_GAP_LOW MERGE_GAP_MID
    MERGE_GAP_HIGH
  norm_num [show (Road.stampCar carC5c 0).aggressiveness = 0 from rfl,
    show carC5c.aggressiveness = 0 from rfl]

lemma mergeSpace_C5 :
    (Road.stampCar carC5c 0).getDesiredMergeSpace (some roadC5after) 1 = 4 := by
  unfold Car.getDesiredMergeSpace
  dsimp only
  rw [mergeGap_C5, show (Road.stampCar carC5c 0).speed = 66 from rfl,
    show roadC5after.spaceSize = 15 from rfl,
    show getValueFromNormalized (Road.stampCar carC5c 0).aggressiveness MERGE_SPACE_LOW
      MERGE_SPACE_MID MERGE_SPACE_HIGH = 1 from by
        unfold getValueFromNormalized MERGE_SPACE_LOW MERGE_SPACE_MID MERGE_SPACE_HIGH
        norm_num [show (Road.stampCar carC5c 0).aggressiveness = 0 from rfl,
          show carC5c.aggressiveness = 0 from rfl]]
  rw [show (⌈(66 : ℚ) * (4/5 * 1) / 15⌉ : ℤ) = 4 from by
    rw [Int.ceil_eq_iff]
    norm_num]
  norm_num

lemma canMerge_C5 :
    canMerge (Road.stampCar carC5c 0) roadC5after = true := by
  rw [canMerge_eq]
  rw [show getLeftOpenSpaces roadC5after (Road.stampCar carC5c 0).laneNumber
      (Road.stampCar carC5c 0).lanePosX = some ⟨100, 1, 20⟩ from by decide]
  dsimp only
  apply decide_eq_true
  have hcd : clampedDesiredSpaces (Road.stampCar carC5c 0) roadC5after = 4 := by
    unfold clampedDesiredSpaces
    dsimp only
    rw [urgency_C5, mergeSpace_C5, leftSpeed_C5]
    rw [if_neg (by norm_num)]
  rw [hcd]
  push_cast
  norm_num

/-- Witness for claim C5: the concrete merging scenario performs a merge
from lane 1 to lane 0 within the tick. -/
theorem C5_merge_moves_one_lane_witness :
    (WF roadC5 ∧ 0 ≤ (roadC5.carOf 1).aggressiveness ∧
     (drivePhase1 roadC5 0 1).1.state = CState.Merge ∧
     canMerge (drivePhase1 roadC5 0 1).1 (drivePhase1 roadC5 0 1).2 = true) ∧
    ((roadC5.driveRest 0 1).carOf 1).laneNumber + 1 = (roadC5.carOf 1).laneNumber := by
  obtain ⟨hp1, hp2⟩ := drivePhase1_C5
  have hM : (drivePhase1 roadC5 0 1).1.state = CState.Merge := by
    rw [hp1]
    rfl
  have hcm : canMerge (drivePhase1 roadC5 0 1).1 (drivePhase1 roadC5 0 1).2 = true := by
    rw [hp1, hp2]
    exact canMerge_C5
  exact ⟨⟨roadC5_wf, le_refl _, hM, hcm⟩,
    C5_merge_moves_one_lane roadC5 0 1 roadC5_wf (le_refl _) hM hcm⟩

/-! ### Claim C3 -/

/-- The claim's "contiguous empty run immediately ahead": the length of
the empty prefix of the listed cells (applied to the cells strictly ahead
of the beside cell).  A definition following the spec's words, to be
compared with the survey the source computes. -/
def claimAhead : List Cell → Nat
  | [] => 0
  | c :: t => if c = Cell.empty then claimAhead t + 1 else 0

/-- The claim's "contiguous empty run immediately behind": the run of
empty cells at indices `x-1, x-2, ..., 0` of the left lane.  A definition
following the spec's words (in particular it may count index 0, which the
source's loop never examines, and it starts strictly behind the beside
cell, which the source's loop counts as well). -/
def claimBehind (l : List Cell) : Nat → Nat
  | 0 => 0
  | x + 1 => if l.getD x Cell.empty = Cell.empty then claimBehind l x + 1 else 0

lemma findIdx_claimAhead (l : List Cell) : ∀ i : Nat,
    List.findIdx? (cellMatches SpaceType.All) l i =
      if claimAhead l = l.length then none else some (claimAhead l + i) := by
  induction l with
  | nil =>
    intro i
    rw [List.findIdx?_nil]
    exact (if_pos rfl).symm
  | cons a t ih =>
    intro i
    rw [List.findIdx?_cons]
    by_cases ha : a = Cell.empty
    · subst ha
      rw [show cellMatches SpaceType.All Cell.empty = false from rfl]
      simp only [Bool.false_eq_true, if_false]
      rw [ih (i + 1)]
      have hA : claimAhead (Cell.empty :: t) = claimAhead t + 1 := by
        simp [claimAhead]
      rw [hA, List.length_cons]
      by_cases hc : claimAhead t = t.length
      · rw [if_pos hc, if_pos (by omega)]
      · rw [if_neg hc, if_neg (by omega)]
        congr 1
        omega
    · have hpa : cellMatches SpaceType.All a = true := by
        simp [cellMatches, ha]
      rw [hpa, if_pos rfl]
      have hA : claimAhead (a :: t) = 0 := by
        simp [claimAhead, ha]
      rw [hA, List.length_cons, if_neg (by omega), Nat.zero_add]

/-- The `All` scan ahead returns the claim's contiguous empty run when an
obstacle exists, and the sentinel `100` when the rest of the lane is
clear. -/
lemma getDistance_all_claimAhead {r : Road} {L : List Cell} {lane x : Nat}
    (hL : getLaneData r lane = some L) (hx : x + 1 < L.length) :
    getDistance r lane x SpaceType.All =
      if claimAhead (L.drop (x + 1)) = L.length - (x + 1) then 100
      else (claimAhead (L.drop (x + 1)) : ℤ) := by
  rw [getDistance_of_laneData hL, if_neg (by omega)]
  rw [findIdx_claimAhead (L.drop (x + 1)) 0]
  rw [List.length_drop]
  by_cases hc : claimAhead (L.drop (x + 1)) = L.length - (x + 1)
  · rw [if_pos hc, if_pos hc]
  · rw [if_neg hc, if_neg hc]
    simp

/-- Left lane of the C3 scenario: blockages at 19 and 21, cell 20 open. -/
def laneC3a : List Cell := ((List.replicate 50 Cell.empty).set 19 Cell.block).set 21 Cell.block

/-- Own lane of the C3 scenario: the car at cell 20. -/
def laneC3b : List Cell := (List.replicate 50 Cell.empty).set 20 (Cell.car 1)

def carC3 : Car := { blankCar with laneNumber := 1, lanePosX := 20, aggressiveness := 1/4 }

def roadC3 : Road :=
  { roadSpace := [laneC3a, laneC3b], cars := [1], blockedLanes := 0, spaceSize := 15,
    carOf := fun _ => carC3, trails := [], completedCars := [] }

lemma urgency_C3 : getMergeUrgency carC3 roadC3 = 1 := by
  unfold getMergeUrgency
  dsimp only
  rw [show getDistance roadC3 carC3.laneNumber carC3.lanePosX SpaceType.Blockage = 100
      from by decide]
  norm_num

lemma leftSpeed_C3 : getLeft10AverageSpeed carC3 roadC3 = -1 := by decide

lemma mergeGap_C3 : carC3.getDesiredMergeGap = 23/20 := by
  unfold Car.getDesiredMergeGap getValueFromNormalized MERGE_GAP_LOW MERGE_GAP_MID
    MERGE_GAP_HIGH
  norm_num [show carC3.aggressiveness = 1/4 from rfl]

lemma mergeSpace_C3 : carC3.getDesiredMergeSpace (some roadC3) 1 = 2 := by
  unfold Car.getDesiredMergeSpace
  dsimp only
  rw [mergeGap_C3, show carC3.speed = 0 from rfl, show roadC3.spaceSize = 15 from rfl,
    show getValueFromNormalized carC3.aggressiveness MERGE_SPACE_LOW MERGE_SPACE_MID
      MERGE_SPACE_HIGH = 2 from by
        unfold getValueFromNormalized MERGE_SPACE_LOW MERGE_SPACE_MID MERGE_SPACE_HIGH
        norm_num [show carC3.aggressiveness = 1/4 from rfl]]
  rw [show ((0 : ℚ) * (23/20 * 1) / 15) = 0 from by ring, Int.ceil_zero]
  norm_num

lemma clamped_C3 : clampedDesiredSpaces carC3 roadC3 = 2 := by
  unfold clampedDesiredSpaces
  dsimp only
  rw [urgency_C3, mergeSpace_C3, leftSpeed_C3]
  rw [if_neg (by norm_num)]

/-- Claim C3 counterexample: for the car beside an open cell whose left
lane has blockages directly ahead (cell 21) and directly behind (cell
19), the claim's quantities are ahead = 0, behind = 0, beside open, so
its acceptance rule `0 + 0 + 1 ≥ 2` fails — yet `canMerge` permits the
merge, because the source counts the beside cell in the behind run as
well. -/
theorem C3_counterexample :
    canMerge carC3 roadC3 = true ∧
    claimAhead (laneC3a.drop (20 + 1)) = 0 ∧
    claimBehind laneC3a 20 = 0 ∧
    laneC3a.getD 20 Cell.empty = Cell.empty ∧
    clampedDesiredSpaces carC3 roadC3 = 2 ∧
    ¬ ((2 : ℚ) ≤ 0 + 0 + 1) := by
  refine ⟨?_, by decide, by decide, by decide, clamped_C3, by norm_num⟩
  rw [canMerge_eq]
  rw [show getLeftOpenSpaces roadC3 carC3.laneNumber carC3.lanePosX = some ⟨0, 1, 1⟩
      from by decide]
  dsimp only
  apply decide_eq_true
  rw [clamped_C3]
  push_cast
  norm_num

/-- Claim C3 (amended): for a car not in the leftmost lane with valid
equal-length lane data, a position short of the lane end and an OPEN
beside cell, `canMerge` permits the merge iff
`ahead + behind + 1 ≥ desired merge space`, where `ahead` is the claim's
contiguous empty run strictly ahead EXCEPT that a fully clear remainder
is reported as the sentinel `100`, and `behind` is the source's backward
run `countBehind`, which starts AT the beside cell (so the open beside
cell is counted both there and in the `+1` beside indicator) and never
counts index 0.  (When the beside cell is blocked or the position is at
the lane end, the survey is all zeros and a merge is refused for any
positive desired space — as the claim says.) -/
theorem C3_survey_acceptance (c : Car) (r : Road) (laneData leftLaneData : List Cell)
    (h0 : c.laneNumber ≠ 0)
    (hl : getLaneData r c.laneNumber = some laneData)
    (hll : getLaneData r (c.laneNumber - 1) = some leftLaneData)
    (hlen : leftLaneData.length = laneData.length)
    (hx : c.lanePosX < laneData.length - 1)
    (hbeside : leftLaneData.getD c.lanePosX Cell.empty = Cell.empty) :
    canMerge c r =
      decide (clampedDesiredSpaces c r ≤
        ((if claimAhead (leftLaneData.drop (c.lanePosX + 1))
              = leftLaneData.length - (c.lanePosX + 1)
          then (100 : ℚ)
          else (claimAhead (leftLaneData.drop (c.lanePosX + 1)) : ℚ)) +
         (countBehind leftLaneData c.lanePosX : ℚ) + 1)) ∧
    (∀ y : Nat, leftLaneData.getD (y + 1) Cell.empty = Cell.empty →
      countBehind leftLaneData (y + 1) = countBehind leftLaneData y + 1) ∧
    countBehind leftLaneData 0 = 0 := by
  refine ⟨?_, ?_, rfl⟩
  · rw [canMerge_eq]
    have hsp : getLeftOpenSpaces r c.laneNumber c.lanePosX =
        some ⟨if 0 ≤ getDistance r (c.laneNumber - 1) c.lanePosX SpaceType.All
                then getDistance r (c.laneNumber - 1) c.lanePosX SpaceType.All else 0,
              1, countBehind leftLaneData c.lanePosX⟩ := by
      have hbeside' : (leftLaneData[c.lanePosX]? : Option Cell).getD Cell.empty
          = Cell.empty := by
        rw [← List.getD_eq_getElem?_getD]
        exact hbeside
      unfold getLeftOpenSpaces
      rw [hl]
      dsimp only
      rw [if_neg h0, hll]
      dsimp only
      rw [if_neg (by simp [hlen]), if_neg (not_le.mpr hx), if_neg (by simp [hbeside'])]
    rw [hsp]
    dsimp only
    rw [getDistance_all_claimAhead hll (by omega)]
    by_cases hc : claimAhead (leftLaneData.drop (c.lanePosX + 1))
        = leftLaneData.length - (c.lanePosX + 1)
    · rw [if_pos hc, if_pos hc, if_pos (by norm_num : (0:ℤ) ≤ 100)]
      rw [decide_eq_decide]
      push_cast
      exact Iff.rfl
    · rw [if_neg hc, if_neg hc,
        if_pos (Int.natCast_nonneg (claimAhead (leftLaneData.drop (c.lanePosX + 1))))]
      rw [decide_eq_decide]
      push_cast
      exact Iff.rfl
  · intro y hy
    rw [show countBehind leftLaneData (y + 1) =
        if leftLaneData.getD (y + 1) Cell.empty = Cell.empty
        then countBehind leftLaneData y + 1 else 0 from rfl, if_pos hy]

/-- Witness for the amended claim C3 at the concrete scenario. -/
theorem C3_survey_acceptance_witness :
    (carC3.laneNumber ≠ 0 ∧
     getLaneData roadC3 carC3.laneNumber = some laneC3b ∧
     getLaneData roadC3 (carC3.laneNumber - 1) = some laneC3a ∧
     laneC3a.length = laneC3b.length ∧
     carC3.lanePosX < laneC3b.length - 1 ∧
     laneC3a.getD carC3.lanePosX Cell.empty = Cell.empty) ∧
    (canMerge carC3 roadC3 =
      decide (clampedDesiredSpaces carC3 roadC3 ≤
        ((if claimAhead (laneC3a.drop (carC3.lanePosX + 1))
              = laneC3a.length - (carC3.lanePosX + 1)
          then (100 : ℚ)
          else (claimAhead (laneC3a.drop (carC3.lanePosX + 1)) : ℚ)) +
         (countBehind laneC3a carC3.lanePosX : ℚ) + 1)) ∧
     (∀ y : Nat, laneC3a.getD (y + 1) Cell.empty = Cell.empty →
       countBehind laneC3a (y + 1) = countBehind laneC3a y + 1) ∧
     countBehind laneC3a 0 = 0) :=
  ⟨⟨by decide, rfl, rfl, by decide, by decide, by decide⟩,
   C3_survey_acceptance carC3 roadC3 laneC3b laneC3a (by decide) rfl rfl (by decide)
     (by decide) (by decide)⟩

/-! ### Claim C6 -/

/-- Any cell at or past the lane width reads as open (JavaScript
out-of-bounds reads). -/
lemma cellAt_wide {r : Road} {lane k : Nat} (hw : WF r) (hk : ROAD_WIDTH ≤ k) :
    cellAt r lane k = Cell.empty := by
  unfold cellAt
  by_cases hl : lane < r.roadSpace.length
  · exact List.getD_eq_default _ _ (by rw [hw.1 lane hl]; exact hk)
  · have h1 : r.roadSpace.getD lane [] = [] :=
      List.getD_eq_default _ _ (le_of_not_lt hl)
    rw [h1]
    simp

/-- Removing the car at index `idx` removes it from the car list for good
(`idx` holds `id` and the list has no duplicates). -/
lemma removeCar_not_mem {r2 : Road} {idx id : Nat} {now : ℚ}
    (hget : r2.cars.get? idx = some id) (hnd : r2.cars.Nodup) :
    id ∉ (r2.removeCar idx now).cars := by
  have hcars : (r2.removeCar idx now).cars = r2.cars.eraseIdx idx := by
    unfold Road.removeCar
    rw [hget]
    dsimp only
    rcases (r2.carOf id).startTime with _ | st
    · rfl
    · rfl
  rw [hcars]
  intro hmem
  obtain ⟨j, hj, hjne, hval⟩ := List.mem_eraseIdx_iff_getElem.mp hmem
  have hget' : r2.cars[idx]? = some id := by rwa [List.get?_eq_getElem?] at hget
  obtain ⟨hidx, hval2⟩ := List.getElem?_eq_some.mp hget'
  exact hjne ((List.Nodup.getElem_inj_iff hnd).mp (hval.trans hval2.symm))

/-- Claim C6: for a listed car in a reachable state, with `r1` the road
after the car's drive step, `c1` the driven car, `desired` the cell
position `floor(distance / cell length) - 1` floored at `0`, `avail` the
space available ahead (the `All` scan, a negative sentinel replaced by the
road width), and `target` the desired position clamped to `x + avail`:
(a) when `target` is within the road, the commit succeeds — no removal
mark, and the car's recorded position becomes exactly `target` in its
unchanged lane; (b) the car never moves past the first obstacle — every
cell strictly between its old position and `target` is open in `r1`;
(c) when `target` falls at or beyond the road width, the commit is
rejected as out of bounds with no mutation, the car's list index is
marked, and processing that mark removes the car from the car list (its
cell is nulled by `removeCar`), not retried. -/
theorem C6_desired_clamp_removal (r : Road) (now : ℚ) (id : Nat)
    (hI : AuxInv r now) (hid : id ∈ r.cars) :
    ∀ (r1 : Road) (c1 : Car) (desired avail target : ℤ),
      r1 = r.drive now id →
      c1 = r1.carOf id →
      desired = max (⌊c1.distance / r1.spaceSize⌋ - 1) 0 →
      avail = (if getDistance r1 c1.laneNumber c1.lanePosX SpaceType.All < 0
               then (ROAD_WIDTH : ℤ)
               else getDistance r1 c1.laneNumber c1.lanePosX SpaceType.All) →
      target = min desired ((c1.lanePosX : ℤ) + avail) →
      ((target < (ROAD_WIDTH : ℤ) →
          (r.driveCar now id).2 = none ∧
          (((r.driveCar now id).1.carOf id).lanePosX : ℤ) = target ∧
          ((r.driveCar now id).1.carOf id).laneNumber = c1.laneNumber) ∧
       (∀ k : Nat, c1.lanePosX < k → (k : ℤ) ≤ target →
          cellAt r1 c1.laneNumber k = Cell.empty) ∧
       ((ROAD_WIDTH : ℤ) ≤ target →
          (r.driveCar now id).1 = r1 ∧
          (r.driveCar now id).2 = some (r.cars.indexOf id) ∧
          ∀ r2 : Road, r2.cars.get? (r.cars.indexOf id) = some id → r2.cars.Nodup →
            id ∉ (r2.removeCar (r.cars.indexOf id) now).cars)) := by
  intro r1' c1' desired avail' target hr1' hc1' hdesired' havail' htarget'
  subst htarget'
  subst havail'
  subst hdesired'
  subst hc1'
  subst hr1'
  obtain ⟨hA1, hcars1, hss1⟩ := drive_auxInv hI hid
  unfold Road.driveCar
  dsimp only
  set r1 := r.drive now id with hr1
  have hid1 : id ∈ r1.cars := by rw [hcars1]; exact hid
  set c1 := r1.carOf id with hc1
  obtain ⟨hlane, hposb⟩ := carConsistent_bounds hA1.1 (hA1.2.2.2 id hid1).1
  rw [← hc1] at hlane hposb
  set d0 : ℤ := ⌊c1.distance / r1.spaceSize⌋ - 1 with hd0
  set A0 := getDistance r1 c1.laneNumber c1.lanePosX SpaceType.All with hA0
  set avail : ℤ := if A0 < 0 then ((ROAD_WIDTH : ℕ) : ℤ) else A0 with havail
  have hbridge : (if d0 < 0 then 0 else d0) = max d0 0 := by
    split_ifs <;> omega
  rw [hbridge]
  set T : ℤ := min (max d0 0) ((c1.lanePosX : ℤ) + avail) with hT
  have hRW : ROAD_WIDTH = 50 := rfl
  have hdes0 : ((c1.lanePosX : ℤ)) ≤ max d0 0 := by
    have h := (hA1.2.2.2 id hid1).2.2.1
    rw [← hc1] at h
    rw [unfold_desiredOf, ← hd0] at h
    exact h
  have havail0 : 0 ≤ avail := by
    rw [havail]
    split_ifs with h
    · norm_num [ROAD_WIDTH]
    · omega
  have hT0 : 0 ≤ T := by
    rw [hT]
    refine le_min (le_max_right _ _) ?_
    have : (0 : ℤ) ≤ (c1.lanePosX : ℤ) := Int.natCast_nonneg _
    linarith
  have hTge : (c1.lanePosX : ℤ) ≤ T := by
    rw [hT]
    exact le_min hdes0 (by linarith)
  have hTle : T ≤ (c1.lanePosX : ℤ) + avail := by
    rw [hT]
    exact min_le_right _ _
  have hTN : ((T.toNat : ℕ) : ℤ) = T := Int.toNat_of_nonneg hT0
  obtain ⟨L0, hLD⟩ : ∃ L0, getLaneData r1 c1.laneNumber = some L0 := by
    rw [getLaneData_eq]
    exact ⟨_, List.getElem?_eq_getElem hlane⟩
  have hLDlen : L0.length = ROAD_WIDTH := by
    have h := hA1.1.1 c1.laneNumber hlane
    have hLD2 := hLD
    rw [getLaneData_eq] at hLD2
    rw [List.getD_eq_getElem?_getD, hLD2] at h
    simpa using h
  have hP2 : ∀ k : Nat, c1.lanePosX < k → (k : ℤ) ≤ T →
      cellAt r1 c1.laneNumber k = Cell.empty := by
    intro k hk1 hk2
    by_cases hkw : k < ROAD_WIDTH
    · by_cases hA0n : A0 < 0
      · exfalso
        have hA0n' := hA0n
        rw [hA0] at hA0n'
        have hlen := getDistance_neg hLD hA0n'
        rw [hLDlen] at hlen
        omega
      · have hx1len : c1.lanePosX + 1 < L0.length := by
          by_contra hcon
          push_neg at hcon
          have h2 : A0 = -2 := by
            rw [hA0, getDistance_of_laneData hLD, if_pos (by omega)]
          omega
        apply getDistance_all_empty_run hLD hx1len k hk1 ?_ (by rw [hLDlen]; exact hkw)
        rw [← hA0]
        have haA : avail = A0 := by
          rw [havail, if_neg hA0n]
        linarith [hTle, haA.le, haA.ge]
    · exact cellAt_wide hA1.1 (le_of_not_lt hkw)
  by_cases hne : max d0 0 ≠ ((c1.lanePosX : ℤ))
  · rw [if_pos hne]
    by_cases hsf : T ≠ ((c1.lanePosX : ℤ))
    · rw [if_pos hsf]
      dsimp only
      rcases Nat.lt_or_ge T.toNat ROAD_WIDTH with hin | hout
      · -- in-bounds commit: succeeds onto an open cell
        have hTgt : (c1.lanePosX : ℤ) < T := lt_of_le_of_ne hTge (Ne.symm hsf)
        have hA0nonneg : 0 ≤ A0 := by
          rw [hA0]
          by_contra hc
          push_neg at hc
          have hlen := getDistance_neg hLD hc
          rw [hLDlen] at hlen
          have h1 : ((ROAD_WIDTH : ℕ) : ℤ) ≤ (c1.lanePosX : ℤ) + 1 := by exact_mod_cast hlen
          have h3 : T < ((ROAD_WIDTH : ℕ) : ℤ) := by
            rw [← hTN]; exact_mod_cast hin
          linarith
        have hTlt50 : T < ((ROAD_WIDTH : ℕ) : ℤ) := by
          rw [← hTN]; exact_mod_cast hin
        have hposnat : c1.lanePosX < T.toNat := by
          have : ((c1.lanePosX : ℤ)) < (T.toNat : ℤ) := by
            rw [hTN]; exact hTgt
          exact_mod_cast this
        have hdest : cellAt r1 c1.laneNumber T.toNat = Cell.empty := by
          apply hP2 T.toNat hposnat
          rw [hTN]
        obtain ⟨h20, -, -, -, -, -, hlaneq, hposq, -, -⟩ :=
          setCarPos_success_spec r1 id c1.laneNumber T.toNat hA1.1 hlane hin
            hlane hposb (Or.inl hdest)
        refine ⟨?_, hP2, ?_⟩
        · intro hTlt
          refine ⟨?_, ?_, ?_⟩
          · rw [h20, if_neg (by norm_num)]
          · rw [hposq, hTN]
          · rw [hlaneq]
        · intro h50
          exfalso
          linarith
      · -- the clamped target is out of bounds: rejected, marked for removal
        rw [setCarPos_oob _ _ _ _ (Or.inr hout)]
        dsimp only
        refine ⟨?_, hP2, ?_⟩
        · intro hTlt
          exfalso
          have h1 : ((ROAD_WIDTH : ℕ) : ℤ) ≤ (T.toNat : ℤ) := by exact_mod_cast hout
          rw [hTN] at h1
          linarith
        · intro h50
          refine ⟨rfl, by rw [if_pos rfl], ?_⟩
          intro r2 hget hnd
          exact removeCar_not_mem hget hnd
    · rw [if_neg hsf]
      push_neg at hsf
      refine ⟨?_, hP2, ?_⟩
      · intro hTlt
        exact ⟨rfl, hsf.symm, rfl⟩
      · intro h50
        exfalso
        rw [hsf] at h50
        have : ((ROAD_WIDTH : ℕ) : ℤ) ≤ ((c1.lanePosX : ℕ) : ℤ) := h50
        have hx50 : ROAD_WIDTH ≤ c1.lanePosX := by exact_mod_cast this
        omega
  · rw [if_neg hne]
    push_neg at hne
    have hTx : T = ((c1.lanePosX : ℤ)) := by
      rw [hT, hne]
      exact min_eq_left (by linarith)
    refine ⟨?_, hP2, ?_⟩
    · intro hTlt
      exact ⟨rfl, hTx.symm, rfl⟩
    · intro h50
      exfalso
      rw [hTx] at h50
      have hx50 : ROAD_WIDTH ≤ c1.lanePosX := by exact_mod_cast h50
      omega

/-- The lane of the C6 scenario: car 1 at cell 20, otherwise open. -/
def laneC6 : List Cell := (List.replicate 50 Cell.empty).set 20 (Cell.car 1)

/-- The C6 car: at `(0, 20)` with cumulative distance `315` (exactly
consistent with its position at cell length 15). -/
def carC6 : Car :=
  { blankCar with laneNumber := 0, lanePosX := 20, distance := 315, lastMoved := some 0 }

def roadC6 : Road :=
  { roadSpace := [laneC6], cars := [1], blockedLanes := 0, spaceSize := 15,
    carOf := fun _ => carC6, trails := [], completedCars := [] }

lemma laneC6_getD (j : Nat) :
    laneC6.getD j Cell.empty = if j = 20 then Cell.car 1 else Cell.empty := by
  unfold laneC6
  rw [List.getD_eq_getElem?_getD, List.getElem?_set, List.getElem?_replicate]
  by_cases h20 : j = 20
  · subst h20
    rw [if_pos rfl, if_pos (by simp), if_pos rfl]
    rfl
  · rw [if_neg (fun h => h20 h.symm), if_neg h20]
    split_ifs
    · rfl
    · rfl

lemma cellAt_roadC6 (i j : Nat) :
    cellAt roadC6 i j = if i = 0 ∧ j = 20 then Cell.car 1 else Cell.empty := by
  rw [cellAt_def]
  rcases i with _ | i
  · rw [show (roadC6.roadSpace[0]? : Option (List Cell)) = some laneC6 from rfl,
      Option.getD_some, ← List.getD_eq_getElem?_getD, laneC6_getD]
    by_cases h20 : j = 20
    · rw [if_pos h20, if_pos ⟨rfl, h20⟩]
    · rw [if_neg h20, if_neg (fun h => h20 h.2)]
  · rw [show (roadC6.roadSpace[i + 1]? : Option (List Cell)) = none from by
      rw [List.getElem?_eq_none_iff]
      simp [roadC6]]
    rw [if_neg (by omega)]
    simp

lemma roadC6_auxInv : AuxInv roadC6 0 := by
  refine ⟨⟨?_, by norm_num [roadC6]⟩, by decide, ?_, ?_⟩
  · intro i hi
    have h1 : i = 0 := by
      have : i < 1 := by simpa [roadC6] using hi
      omega
    subst h1
    decide
  · intro i j id hc
    rw [cellAt_roadC6] at hc
    split_ifs at hc with h
    injection hc with h2
    subst h2
    simp [roadC6]
  · intro id hid
    have hid1 : id = 1 := by simpa [roadC6] using hid
    subst hid1
    constructor
    · intro i j
      rw [cellAt_roadC6]
      constructor
      · intro hc
        split_ifs at hc with h
        exact ⟨h.1, h.2⟩
      · rintro ⟨h1, h2⟩
        rw [if_pos (⟨h1, h2⟩ : i = 0 ∧ j = 20)]
    · refine ⟨by norm_num [roadC6, carC6, blankCar], ?_, ?_⟩
      · rw [unfold_desiredOf]
        show (20 : ℤ) ≤ max (⌊(315 : ℚ) / 15⌋ - 1) 0
        rw [show ⌊(315 : ℚ) / 15⌋ = 21 from by norm_num]
        omega
      · intro t ht
        have h0 : t = 0 := by
          have h1 : (some (0 : ℚ) : Option ℚ) = some t := ht
          injection h1 with h2
          exact h2.symm
        rw [h0]

/-- Witness for claim C6: the single-car road satisfies the reachability
invariant, and the claim's conclusions hold of its drive-and-commit
step. -/
theorem C6_desired_clamp_removal_witness :
    AuxInv roadC6 0 ∧ 1 ∈ roadC6.cars ∧
    (∀ (r1 : Road) (c1 : Car) (desired avail target : ℤ),
      r1 = roadC6.drive 0 1 →
      c1 = r1.carOf 1 →
      desired = max (⌊c1.distance / r1.spaceSize⌋ - 1) 0 →
      avail = (if getDistance r1 c1.laneNumber c1.lanePosX SpaceType.All < 0
               then (ROAD_WIDTH : ℤ)
               else getDistance r1 c1.laneNumber c1.lanePosX SpaceType.All) →
      target = min desired ((c1.lanePosX : ℤ) + avail) →
      ((target < (ROAD_WIDTH : ℤ) →
          (roadC6.driveCar 0 1).2 = none ∧
          (((roadC6.driveCar 0 1).1.carOf 1).lanePosX : ℤ) = target ∧
          ((roadC6.driveCar 0 1).1.carOf 1).laneNumber = c1.laneNumber) ∧
       (∀ k : Nat, c1.lanePosX < k → (k : ℤ) ≤ target →
          cellAt r1 c1.laneNumber k = Cell.empty) ∧
       ((ROAD_WIDTH : ℤ) ≤ target →
          (roadC6.driveCar 0 1).1 = r1 ∧
          (roadC6.driveCar 0 1).2 = some (roadC6.cars.indexOf 1) ∧
          ∀ r2 : Road, r2.cars.get? (roadC6.cars.indexOf 1) = some 1 → r2.cars.Nodup →
            1 ∉ (r2.removeCar (roadC6.cars.indexOf 1) 0).cars))) :=
  ⟨roadC6_auxInv, by decide,
   C6_desired_clamp_removal roadC6 0 1 roadC6_auxInv (by decide)⟩

end ZipperMerge
